import Mathlib

/-!
# LightmapExport: the lightmap metadata exporter

A shallow embedding of `ULightmapExportFunctionLibrary`
(`Source/LightmapExport/Private/LightmapExportFunctionLibrary.cpp`) and the
properties of its three entry points:

* `ExportPrimitiveLightmapInfoInWorld` : one JSON document per actor,
* `ExportObjects` : the choice of an exporter per object,
* `ExportLightmap` : the two parallel lists handed to `ExportObjects`.

Conventions of the embedding.

* A C++ pointer that the code tests against `nullptr` is an `Option`.
* `TArray` and the component set of an actor are `List`s in iteration order.
* `float`, `double` and `int32` values are only copied by this code, never
  computed with.  A (finite) number stored in a JSON value is a rational; the
  widening conversions `float → double` and `int32 → double` are value
  preserving, so the stored value is the value read.
* Host-engine types whose declarations are outside the repository carry only
  the members the code reads.
* The pointer `World->PersistentLevel->MapBuildData`, which the exporter reads
  and then calls `GetMeshBuildData` on without a test, is an `Option` as well:
  a level whose lighting was never built has no registry, and the call through
  the null pointer is the fault `Fault.NullDereference`.  An export that stops
  on a fault leaves the file system as it is at that point.  The records found
  in a registry (a lightmap with two textures and an encoding) are data the
  specification describes as complete, and are plain values.
* Host-engine functions (`FJsonSerializer::Serialize`, `FPaths::GetExtension`,
  `UExporter::RunAssetExportTask`, ...) are parameters of the definitions.
-/

namespace LightmapExport

/-! ## JSON values (`Dom/JsonObject.h`) -/

/-- The JSON value kinds the exporter creates: `FJsonValueString`,
`FJsonValueNumber`, `FJsonValueArray`, `FJsonValueObject`. -/
inductive FJsonValue where
  | String (Value : String)
  | Number (Value : ℚ)
  | Array (Values : List FJsonValue)
  | Object (Values : List (String × FJsonValue))

/-- An `FJsonObject`: its `Values` map, in insertion order. -/
structure FJsonObject where
  Values : List (String × FJsonValue)

namespace FJsonObject

/-- The object made by `new FJsonObject()`. -/
def New : FJsonObject := ⟨[]⟩

/-- Storing a value under a field name (`Values.Add`): the value of an existing
key is replaced in place, a new key is appended. -/
def SetField (Obj : FJsonObject) (FieldName : String) (Value : FJsonValue) : FJsonObject :=
  if Obj.Values.any (fun kv => kv.1 == FieldName) then
    ⟨Obj.Values.map (fun kv => if kv.1 == FieldName then (kv.1, Value) else kv)⟩
  else
    ⟨Obj.Values ++ [(FieldName, Value)]⟩

/-- The method `SetStringField`. -/
def SetStringField (Obj : FJsonObject) (FieldName : String) (StringValue : String) : FJsonObject :=
  Obj.SetField FieldName (FJsonValue.String StringValue)

/-- The method `SetNumberField`. -/
def SetNumberField (Obj : FJsonObject) (FieldName : String) (Number : ℚ) : FJsonObject :=
  Obj.SetField FieldName (FJsonValue.Number Number)

/-- The method `SetArrayField`. -/
def SetArrayField (Obj : FJsonObject) (FieldName : String) (Array : List FJsonValue) : FJsonObject :=
  Obj.SetField FieldName (FJsonValue.Array Array)

/-- The method `TryGetField`: the value stored under a field name. -/
def TryGetField (Obj : FJsonObject) (FieldName : String) : Option FJsonValue :=
  (Obj.Values.find? (fun kv => kv.1 == FieldName)).map (fun kv => kv.2)

end FJsonObject

/-! ## The scene (`UWorld`, `AActor`, `UStaticMeshComponent`) -/

/-- A four-component vector `UE::Math::TVector4<T>`. -/
structure TVector4 where
  X : ℚ
  Y : ℚ
  Z : ℚ
  W : ℚ

/-- A two-component vector `FVector2D`. -/
structure FVector2D where
  X : ℚ
  Y : ℚ

/-- The constructor `FVector4d(FVector2D InXY, FVector2D InZW)`. -/
def FVector4d (InXY InZW : FVector2D) : TVector4 :=
  ⟨InXY.X, InXY.Y, InZW.X, InZW.Y⟩

/-- Modelled from the spec: the engine type `FGuid`, whose declaration is not
in the repository.  The exporter only prints a GUID (`ToString`) and hands it to
the registry, so a GUID is identified with its textual form. -/
structure FGuid where
  ToString : String
deriving DecidableEq

/-- The members of the engine type `UObject` that the library reads.  `UniqueID` stands for the identity of the object, `Name` for
`GetName()`, `ExporterName` for `GetExporterName()`, `DisallowExport` for
`GetOutermost()->HasAnyPackageFlags(PKG_DisallowExport)` and `IsPackage` for
`IsA(UPackage::StaticClass())`. -/
structure UObject where
  UniqueID : Nat
  Name : String
  ExporterName : String
  DisallowExport : Bool
  IsPackage : Bool
deriving DecidableEq

/-- A lightmap texture is an object; only its name is read. -/
abbrev UTexture2D := UObject

/-- Modelled from the spec: the engine type `FLightMap2D` ("two texture
references and an encoding record"): `GetTexture(0)` and `GetTexture(1)`, the
coordinate scale and bias, and the arrays `ScaleVectors[4]`, `AddVectors[4]`. -/
structure FLightMap2D where
  GetTexture : Fin 2 → UTexture2D
  CoordinateScale : FVector2D
  CoordinateBias : FVector2D
  ScaleVectors : Fin 4 → TVector4
  AddVectors : Fin 4 → TVector4

/-- Modelled from the spec: the engine type `FMeshMapBuildData`, the record
found under a build-data identifier; `LightMap` stands for
`LightMap->GetLightMap2D()`, which the exporter dereferences as it is. -/
structure FMeshMapBuildData where
  LightMap : FLightMap2D

/-- Modelled from the spec: the build-data registry
`Lookup(buildDataId) -> Option<LightmapBuildData>`. -/
structure UMapBuildDataRegistry where
  GetMeshBuildData : FGuid → Option FMeshMapBuildData

/-- One entry of `UStaticMeshComponent::LODData`. -/
structure FStaticMeshComponentLODInfo where
  MapBuildDataId : FGuid

/-- The members of a static-mesh component that the exporter reads. -/
structure UStaticMeshComponent where
  Name : String
  LODData : List FStaticMeshComponentLODInfo
  StaticLightMapResolution : Int

/-- An actor component, by its place in the class hierarchy: a static-mesh
component (or a subclass of it), another primitive component, or a component
that is not a primitive component. -/
inductive UActorComponent where
  | StaticMesh (SMComp : UStaticMeshComponent)
  | Primitive (Name : String)
  | Other (Name : String)

namespace UActorComponent

/-- The test `Comp->IsA(UPrimitiveComponent::StaticClass())`. -/
def IsPrimitiveComponent : UActorComponent → Bool
  | StaticMesh _ => true
  | Primitive _ => true
  | Other _ => false

/-- The cast `Cast<UStaticMeshComponent>(Comp)`. -/
def CastStaticMeshComponent : UActorComponent → Option UStaticMeshComponent
  | StaticMesh SMComp => some SMComp
  | Primitive _ => none
  | Other _ => none

end UActorComponent

/-- The members of an actor that the exporter reads. -/
structure AActor where
  ActorNameOrLabel : String
  ActorGuid : FGuid
  Components : List (Option UActorComponent)

/-- The persistent level: its actors and the pointer `MapBuildData` to its
build-data registry, null for a level without build data. -/
structure ULevel where
  Actors : List (Option AActor)
  MapBuildData : Option UMapBuildDataRegistry

/-- The ways the library can stop abnormally: a call through a null pointer, a
failed `check`, or an index outside an array. -/
inductive Fault where
  | NullDereference
  | CheckFailed
  | IndexOutOfRange
deriving DecidableEq

/-- The world handed to the exporter. -/
structure UWorld where
  Name : String
  PersistentLevel : ULevel

/-! ## `ConvertVectorToJsonArray` and the component loop -/

/-- The function `ConvertVectorToJsonArray`: four numbers added in the order
X, Y, Z, W. -/
def ConvertVectorToJsonArray (Vector : TVector4) : List FJsonValue :=
  let JsonArray : List FJsonValue := []
  let JsonArray := JsonArray ++ [FJsonValue.Number Vector.X]
  let JsonArray := JsonArray ++ [FJsonValue.Number Vector.Y]
  let JsonArray := JsonArray ++ [FJsonValue.Number Vector.Z]
  let JsonArray := JsonArray ++ [FJsonValue.Number Vector.W]
  JsonArray

/-- The body of the `if (MeshBuildData)` branch of the component loop: the
fields added to `JsonCompObject` once the lookup has succeeded. -/
def AddLightmapFields (JsonCompObject : FJsonObject) (MeshBuildData : FMeshMapBuildData) :
    FJsonObject :=
  let Lightmap := MeshBuildData.LightMap
  let HQLightmapName := (Lightmap.GetTexture 0).Name
  let LQLightmapName := (Lightmap.GetTexture 1).Name
  let JsonCompObject := JsonCompObject.SetStringField "HQLightmapName" HQLightmapName
  let JsonCompObject := JsonCompObject.SetStringField "LQLightmapName" LQLightmapName
  let CoordScale := Lightmap.CoordinateScale
  let CoordBias := Lightmap.CoordinateBias
  let JsonCompObject := JsonCompObject.SetArrayField "CoordScaleBias"
    (ConvertVectorToJsonArray (FVector4d CoordScale CoordBias))
  let HQLightmapScale0 := Lightmap.ScaleVectors 0
  let HQLightmapScale1 := Lightmap.ScaleVectors 1
  let HQLightmapAdd0 := Lightmap.AddVectors 0
  let HQLightmapAdd1 := Lightmap.AddVectors 1
  let JsonCompObject := JsonCompObject.SetArrayField "HQLightmapScale0"
    (ConvertVectorToJsonArray HQLightmapScale0)
  let JsonCompObject := JsonCompObject.SetArrayField "HQLightmapScale1"
    (ConvertVectorToJsonArray HQLightmapScale1)
  let JsonCompObject := JsonCompObject.SetArrayField "HQLightmapAdd0"
    (ConvertVectorToJsonArray HQLightmapAdd0)
  let JsonCompObject := JsonCompObject.SetArrayField "HQLightmapAdd1"
    (ConvertVectorToJsonArray HQLightmapAdd1)
  let LQLightmapScale0 := Lightmap.ScaleVectors 2
  let LQLightmapScale1 := Lightmap.ScaleVectors 3
  let LQLightmapAdd0 := Lightmap.AddVectors 2
  let LQLightmapAdd1 := Lightmap.AddVectors 3
  let JsonCompObject := JsonCompObject.SetArrayField "LQLightmapScale0"
    (ConvertVectorToJsonArray LQLightmapScale0)
  let JsonCompObject := JsonCompObject.SetArrayField "LQLightmapScale1"
    (ConvertVectorToJsonArray LQLightmapScale1)
  let JsonCompObject := JsonCompObject.SetArrayField "LQLightmapAdd0"
    (ConvertVectorToJsonArray LQLightmapAdd0)
  let JsonCompObject := JsonCompObject.SetArrayField "LQLightmapAdd1"
    (ConvertVectorToJsonArray LQLightmapAdd1)
  JsonCompObject

/-- The loop `for (const UActorComponent* Comp : Actor->GetComponents())` of
`ExportPrimitiveLightmapInfoInWorld`, run on the remaining components with the
array `JsonComponents` built so far.  Every `continue` of the source is a
recursive call that leaves `JsonComponents` as it is.  The call
`MapBuildDataRegistry->GetMeshBuildData(...)` goes through the pointer read from
the level, which the source does not test: on a null pointer the loop stops
with `Fault.NullDereference`. -/
def ComponentLoop (MapBuildDataRegistry : Option UMapBuildDataRegistry) :
    List (Option UActorComponent) → List FJsonValue → Except Fault (List FJsonValue)
  | [], JsonComponents => Except.ok JsonComponents
  | none :: Rest, JsonComponents => ComponentLoop MapBuildDataRegistry Rest JsonComponents
  | some Comp :: Rest, JsonComponents =>
    if Comp.IsPrimitiveComponent == false then
      ComponentLoop MapBuildDataRegistry Rest JsonComponents
    else
      match Comp.CastStaticMeshComponent with
      | none => ComponentLoop MapBuildDataRegistry Rest JsonComponents
      | some SMComp =>
        match SMComp.LODData with
        | [] => ComponentLoop MapBuildDataRegistry Rest JsonComponents
        | LOD0 :: _ =>
          let JsonCompObject := FJsonObject.New
          let CompName := SMComp.Name
          let CompGuid := LOD0.MapBuildDataId.ToString
          let JsonCompObject := JsonCompObject.SetStringField "ComponentName" CompName
          let JsonCompObject := JsonCompObject.SetStringField "ComponentGuid" CompGuid
          let LightmapSize := SMComp.StaticLightMapResolution
          let JsonCompObject := JsonCompObject.SetNumberField "LightmapSize" (LightmapSize : ℚ)
          match MapBuildDataRegistry with
          | none => Except.error Fault.NullDereference
          | some Registry =>
            match Registry.GetMeshBuildData LOD0.MapBuildDataId with
            | some MeshBuildData =>
              ComponentLoop MapBuildDataRegistry Rest
                (JsonComponents ++
                  [FJsonValue.Object (AddLightmapFields JsonCompObject MeshBuildData).Values])
            | none => ComponentLoop MapBuildDataRegistry Rest JsonComponents

/-- The array `JsonComponents` of an actor when its component loop ends, or the
fault that stops the loop. -/
def JsonComponentsOf (MapBuildDataRegistry : Option UMapBuildDataRegistry)
    (Components : List (Option UActorComponent)) : Except Fault (List FJsonValue) :=
  ComponentLoop MapBuildDataRegistry Components []

/-! ## The component entry in the words of the specification -/

/-- The 4-number array `[X, Y, Z, W]` of a vector. -/
def SpecVectorArray (V : TVector4) : FJsonValue :=
  FJsonValue.Array
    [FJsonValue.Number V.X, FJsonValue.Number V.Y, FJsonValue.Number V.Z, FJsonValue.Number V.W]

/-- The component entry of section 6 of the specification, for a component,
its LOD-0 build-data identifier and the record the identifier resolves to. -/
def SpecComponentEntry (SMComp : UStaticMeshComponent) (BuildDataId : FGuid)
    (BuildData : FMeshMapBuildData) : FJsonValue :=
  FJsonValue.Object
    [("ComponentName", FJsonValue.String SMComp.Name),
     ("ComponentGuid", FJsonValue.String BuildDataId.ToString),
     ("LightmapSize", FJsonValue.Number (SMComp.StaticLightMapResolution : ℚ)),
     ("HQLightmapName", FJsonValue.String (BuildData.LightMap.GetTexture 0).Name),
     ("LQLightmapName", FJsonValue.String (BuildData.LightMap.GetTexture 1).Name),
     ("CoordScaleBias", FJsonValue.Array
        [FJsonValue.Number BuildData.LightMap.CoordinateScale.X,
         FJsonValue.Number BuildData.LightMap.CoordinateScale.Y,
         FJsonValue.Number BuildData.LightMap.CoordinateBias.X,
         FJsonValue.Number BuildData.LightMap.CoordinateBias.Y]),
     ("HQLightmapScale0", SpecVectorArray (BuildData.LightMap.ScaleVectors 0)),
     ("HQLightmapScale1", SpecVectorArray (BuildData.LightMap.ScaleVectors 1)),
     ("HQLightmapAdd0", SpecVectorArray (BuildData.LightMap.AddVectors 0)),
     ("HQLightmapAdd1", SpecVectorArray (BuildData.LightMap.AddVectors 1)),
     ("LQLightmapScale0", SpecVectorArray (BuildData.LightMap.ScaleVectors 2)),
     ("LQLightmapScale1", SpecVectorArray (BuildData.LightMap.ScaleVectors 3)),
     ("LQLightmapAdd0", SpecVectorArray (BuildData.LightMap.AddVectors 2)),
     ("LQLightmapAdd1", SpecVectorArray (BuildData.LightMap.AddVectors 3))]

/-- The lookup `Lookup(buildDataId) -> Option<LightmapBuildData>` of the
specification: an identifier resolves when the level has a registry and the
registry holds a record for it. -/
def SpecLookup (Registry : Option UMapBuildDataRegistry) (BuildDataId : FGuid) :
    Option FMeshMapBuildData :=
  match Registry with
  | none => none
  | some R => R.GetMeshBuildData BuildDataId

/-- The entry a component contributes according to the specification: the
component is non-null, is a static-mesh component, has a LOD entry, and the
identifier of LOD 0 resolves in the registry; otherwise it contributes none. -/
def SpecEntryOf (Registry : Option UMapBuildDataRegistry) :
    Option UActorComponent → Option FJsonValue
  | some (UActorComponent.StaticMesh SMComp) =>
    match SMComp.LODData with
    | LOD0 :: _ =>
      (SpecLookup Registry LOD0.MapBuildDataId).map
        (SpecComponentEntry SMComp LOD0.MapBuildDataId)
    | [] => none
  | _ => none

/-- A component with a resolvable build-data identifier: non-null, a
static-mesh component, at least one LOD entry, LOD-0 identifier found in the
registry. -/
def Resolvable (Registry : Option UMapBuildDataRegistry) (Comp : Option UActorComponent) :
    Prop :=
  ∃ SMComp LOD0 Rest BuildData,
    Comp = some (UActorComponent.StaticMesh SMComp) ∧
    SMComp.LODData = LOD0 :: Rest ∧
    SpecLookup Registry LOD0.MapBuildDataId = some BuildData

/-- A component at which the loop reaches the registry: a non-null static-mesh
component with at least one LOD entry. -/
def ReachesRegistry : Option UActorComponent → Bool
  | some (UActorComponent.StaticMesh SMComp) => !SMComp.LODData.isEmpty
  | _ => false

/-- An actor one of whose components makes the loop reach the registry. -/
def ActorReachesRegistry : Option AActor → Bool
  | none => false
  | some Actor => Actor.Components.any ReachesRegistry

/-! ## The file system and `ExportPrimitiveLightmapInfoInWorld` -/

/-- Modelled from the spec: the part of the host file system the exporter
uses.  `DirectoryExists` answers `FPaths::DirectoryExists`, `Files` gives the
content of each file that exists, and `CanWrite` tells for which file names
`FFileHelper::SaveStringToFile` succeeds. -/
structure FFileSystem where
  DirectoryExists : String → Bool
  CanWrite : String → Bool
  Files : String → Option String

/-- Modelled from the spec: `FFileHelper::SaveStringToFile`.  A successful
call replaces the whole content of the file, creating it if need be; a failed
call leaves the file system as it was.  The exporter ignores the result. -/
def SaveStringToFile (FileSystem : FFileSystem) (JsonString FileName : String) : FFileSystem :=
  if FileSystem.CanWrite FileName then
    { FileSystem with
      Files := fun Path => if Path = FileName then some JsonString else FileSystem.Files Path }
  else
    FileSystem

/-- Modelled from the spec: `FPaths::Combine`, which gives
`<outputDirectory>/<file name>`. -/
def Combine (A B : String) : String :=
  A ++ "/" ++ B

/-- What a run of the exporter leaves behind: the file system, and the fault
that stopped the run, if one did. -/
structure FExportOutcome where
  FileSystem : FFileSystem
  Fault : Option Fault

/-- One iteration of `for (const AActor* Actor : World->PersistentLevel->Actors)`.
`Serialize` stands for `FJsonSerializer::Serialize` with a fresh writer: the
text written when it returns true, `none` when it returns false. -/
def ActorStep (Serialize : FJsonObject → Option String)
    (MapBuildDataRegistry : Option UMapBuildDataRegistry) (ExportPath : String)
    (FileSystem : FFileSystem) : Option AActor → FExportOutcome
  | none => ⟨FileSystem, none⟩
  | some Actor =>
    let JsonObject := FJsonObject.New
    let ActorName := Actor.ActorNameOrLabel
    let ActorGuid := Actor.ActorGuid.ToString
    let JsonObject := JsonObject.SetStringField "ActorName" ActorName
    let JsonObject := JsonObject.SetStringField "ActorGuid" ActorGuid
    match ComponentLoop MapBuildDataRegistry Actor.Components [] with
    | Except.error F => ⟨FileSystem, some F⟩
    | Except.ok JsonComponents =>
      if JsonComponents.length > 0 then
        let JsonObject := JsonObject.SetArrayField "Components" JsonComponents
        match Serialize JsonObject with
        | some JsonString =>
          let FileName := Combine ExportPath (ActorName ++ ".json")
          ⟨SaveStringToFile FileSystem JsonString FileName, none⟩
        | none => ⟨FileSystem, none⟩
      else
        ⟨FileSystem, none⟩

/-- The loop over the actors of the persistent level, in scene order; a fault
in an iteration ends the run. -/
def ActorLoop (Serialize : FJsonObject → Option String)
    (MapBuildDataRegistry : Option UMapBuildDataRegistry) (ExportPath : String) :
    List (Option AActor) → FFileSystem → FExportOutcome
  | [], FileSystem => ⟨FileSystem, none⟩
  | Actor :: Rest, FileSystem =>
    match ActorStep Serialize MapBuildDataRegistry ExportPath FileSystem Actor with
    | ⟨Next, none⟩ => ActorLoop Serialize MapBuildDataRegistry ExportPath Rest Next
    | ⟨Next, some F⟩ => ⟨Next, some F⟩

/-- The function `ExportPrimitiveLightmapInfoInWorld`: the file system it
leaves behind, and the fault that stopped it, if one did. -/
def ExportPrimitiveLightmapInfoInWorld (Serialize : FJsonObject → Option String)
    (World : Option UWorld) (ExportPath : String) (FileSystem : FFileSystem) :
    FExportOutcome :=
  match World with
  | none => ⟨FileSystem, none⟩
  | some World =>
    if FileSystem.DirectoryExists ExportPath == false then
      ⟨FileSystem, none⟩
    else
      let MapBuildDataRegistry := World.PersistentLevel.MapBuildData
      ActorLoop Serialize MapBuildDataRegistry ExportPath World.PersistentLevel.Actors FileSystem

/-! ## The export in the words of the specification -/

/-- The document of section 6 of the specification for an actor with the
listed component entries. -/
def SpecDocument (Actor : AActor) (Entries : List FJsonValue) : FJsonObject :=
  ⟨[("ActorName", FJsonValue.String Actor.ActorNameOrLabel),
    ("ActorGuid", FJsonValue.String Actor.ActorGuid.ToString),
    ("Components", FJsonValue.Array Entries)]⟩

/-- The output file of an actor: `<outputDirectory>/<ActorName>.json`. -/
def SpecFileName (ExportPath ActorName : String) : String :=
  ExportPath ++ "/" ++ ActorName ++ ".json"

/-- The document emitted for an actor, with its file name (step 1.d of section
4.1): none for a null actor and for an actor whose entry list is empty. -/
def SpecWriteOf (Registry : Option UMapBuildDataRegistry) (ExportPath : String) :
    Option AActor → Option (String × FJsonObject)
  | none => none
  | some Actor =>
    match Actor.Components.filterMap (SpecEntryOf Registry) with
    | [] => none
    | Entry :: Entries =>
      some (SpecFileName ExportPath Actor.ActorNameOrLabel, SpecDocument Actor (Entry :: Entries))

/-- The documents emitted for a scene, in scene order. -/
def SpecWrites (World : UWorld) (ExportPath : String) : List (String × FJsonObject) :=
  World.PersistentLevel.Actors.filterMap (SpecWriteOf World.PersistentLevel.MapBuildData ExportPath)

/-- Emitting one document: it is serialized and, if that succeeds, saved. -/
def PerformWrite (Serialize : FJsonObject → Option String) (FileSystem : FFileSystem)
    (Write : String × FJsonObject) : FFileSystem :=
  match Serialize Write.2 with
  | some JsonString => SaveStringToFile FileSystem JsonString Write.1
  | none => FileSystem

/-- An actor that has at least one component with a resolvable build-data
identifier. -/
def Qualifies (Registry : Option UMapBuildDataRegistry) (Actor : Option AActor) : Prop :=
  ∃ A, Actor = some A ∧ ∃ Comp ∈ A.Components, Resolvable Registry Comp

/-- The content of a file after a sequence of successful saves: the last save
to that file, if there is one. -/
def LastSaved (Path : String) : List (String × String) → Option String
  | [] => none
  | (FileName, Content) :: Rest =>
    match LastSaved Path Rest with
    | some Later => some Later
    | none => if Path = FileName then some Content else none

/-- The saves that succeed among a sequence of emitted documents. -/
def SuccessfulSaves (Serialize : FJsonObject → Option String) (CanWrite : String → Bool)
    (Writes : List (String × FJsonObject)) : List (String × String) :=
  Writes.filterMap (fun Write =>
    if CanWrite Write.1 then (Serialize Write.2).map (fun Content => (Write.1, Content)) else none)

/-- The content of the files once a sequence of saves has succeeded on top of
an earlier content. -/
def FilesAfter (Files : String → Option String) (Saves : List (String × String)) :
    String → Option String :=
  fun Path =>
    match LastSaved Path Saves with
    | some Content => some Content
    | none => Files Path

/-! ## `ExportObjects` -/

/-- Modelled from the spec: the members of the engine type `UExporter` that
`ExportObjects` reads: the name of its class (`GetClass()->GetFName()`), the
parallel arrays `FormatExtension` and `FormatDescription`, and
`SupportsObject`. -/
structure UExporter where
  ClassName : String
  FormatExtension : List String
  FormatDescription : List String
  SupportsObject : UObject → Bool

/-- The task object filled in before `UExporter::RunAssetExportTask`. -/
structure UAssetExportTask where
  Object : UObject
  Exporter : UExporter
  Filename : String
  bSelected : Bool
  bReplaceIdentical : Bool
  bPrompt : Bool
  bUseFileArchive : Bool
  bWriteEmptyFiles : Bool

/-- The host services `ExportObjects` calls, none of which is code of the
repository: `FPaths::GetPath`, `FPaths::GetExtension`, whether
`IFileManager::MakeDirectory(Path, true)` succeeds, `IFileManager::IsReadOnly`,
and `UExporter::RunAssetExportTask`, of which the loop only observes whether
the exporter asks afterwards to cancel the batch
(`GetBatchMode() && GetCancelBatch()`). -/
structure FExportHost where
  GetPath : String → String
  GetExtension : String → String
  MakeDirectory : String → Bool
  IsReadOnly : String → Bool
  RunAssetExportTask : UAssetExportTask → Bool

/-- The characters of a string with the ASCII capitals turned to lower case. -/
def LowerChars (S : String) : List Char :=
  S.data.map Char.toLower

/-- Modelled from the spec: `FCString::Stricmp`, the case-insensitive
comparison: zero exactly when the two strings are equal up to the case of their
letters. -/
def Stricmp (A B : String) : Int :=
  if LowerChars A = LowerChars B then 0
  else if LowerChars A < LowerChars B then -1
  else 1

/-- The loop over `Exporter->FormatExtension`: the exporter is added to
`ValidExporters` at the first extension that fits, and the loop is left. -/
def FormatLoop (Extension : String) (Exporter : UExporter) :
    List String → List UExporter → List UExporter
  | [], ValidExporters => ValidExporters
  | FormatExtension :: Rest, ValidExporters =>
    if Stricmp FormatExtension Extension == 0 || Stricmp FormatExtension "*" == 0 then
      ValidExporters ++ [Exporter]
    else
      FormatLoop Extension Exporter Rest ValidExporters

/-- The loop over `Exporters` that fills `ValidExporters`. -/
def ExporterLoop (Host : FExportHost) (ObjectToExport : UObject) (SaveFileName : String) :
    List UExporter → List UExporter → Except Fault (List UExporter)
  | [], ValidExporters => Except.ok ValidExporters
  | Exporter :: Rest, ValidExporters =>
    if Exporter.SupportsObject ObjectToExport then
      if Exporter.FormatExtension.length == Exporter.FormatDescription.length then
        ExporterLoop Host ObjectToExport SaveFileName Rest
          (FormatLoop (Host.GetExtension SaveFileName) Exporter Exporter.FormatExtension
            ValidExporters)
      else
        Except.error Fault.CheckFailed
    else
      ExporterLoop Host ObjectToExport SaveFileName Rest ValidExporters

/-- The search `for (ExporterIdx ...)` for a candidate whose class name is the
preferred exporter name of the object; `ExporterToUse` holds the default. -/
def BetterMatchLoop (ObjectToExport : UObject) : List UExporter → UExporter → UExporter
  | [], ExporterToUse => ExporterToUse
  | Candidate :: Rest, ExporterToUse =>
    if Candidate.ClassName == ObjectToExport.ExporterName then
      Candidate
    else
      BetterMatchLoop ObjectToExport Rest ExporterToUse

/-- The choice of `ExporterToUse` among `ValidExporters`. -/
def ExporterToUse (ObjectToExport : UObject) : List UExporter → Option UExporter
  | [] => none
  | [Only] => some Only
  | First :: Second :: Rest =>
    some (BetterMatchLoop ObjectToExport (First :: Second :: Rest) First)

/-- The exporter `ExportObjects` picks for one object and one file name. -/
def SelectExporter (Host : FExportHost) (Exporters : List UExporter) (ObjectToExport : UObject)
    (SaveFileName : String) : Except Fault (Option UExporter) :=
  match ExporterLoop Host ObjectToExport SaveFileName Exporters [] with
  | Except.error F => Except.error F
  | Except.ok ValidExporters => Except.ok (ExporterToUse ObjectToExport ValidExporters)

/-- The loop `for (int32 Index = 0; Index < ObjectsToExport.Num(); Index++)`
from position `Index` on; the result is the list of export tasks run. -/
def ObjectLoop (Host : FExportHost) (Exporters : List UExporter) (SaveFileNameList : List String) :
    Nat → List (Option UObject) → Except Fault (List UAssetExportTask)
  | _, [] => Except.ok []
  | Index, none :: Rest => ObjectLoop Host Exporters SaveFileNameList (Index + 1) Rest
  | Index, some ObjectToExport :: Rest =>
    if ObjectToExport.DisallowExport then
      ObjectLoop Host Exporters SaveFileNameList (Index + 1) Rest
    else
      match SaveFileNameList[Index]? with
      | none => Except.error Fault.IndexOutOfRange
      | some SaveFileName =>
        let ObjectExportPath := Host.GetPath SaveFileName
        let bFileInSubdirectory := ObjectExportPath.data.contains '/'
        if bFileInSubdirectory && !Host.MakeDirectory ObjectExportPath then
          ObjectLoop Host Exporters SaveFileNameList (Index + 1) Rest
        else if Host.IsReadOnly SaveFileName then
          ObjectLoop Host Exporters SaveFileNameList (Index + 1) Rest
        else
          match SelectExporter Host Exporters ObjectToExport SaveFileName with
          | Except.error F => Except.error F
          | Except.ok none => ObjectLoop Host Exporters SaveFileNameList (Index + 1) Rest
          | Except.ok (some Exporter) =>
            let ExportTask : UAssetExportTask :=
              { Object := ObjectToExport
                Exporter := Exporter
                Filename := SaveFileName
                bSelected := false
                bReplaceIdentical := true
                bPrompt := false
                bUseFileArchive := ObjectToExport.IsPackage
                bWriteEmptyFiles := false }
            if Host.RunAssetExportTask ExportTask then
              Except.ok [ExportTask]
            else
              match ObjectLoop Host Exporters SaveFileNameList (Index + 1) Rest with
              | Except.error F => Except.error F
              | Except.ok Tasks => Except.ok (ExportTask :: Tasks)

/-- The function `ExportObjects`: the export tasks it runs, in order, or the
fault that stops it. -/
def ExportObjects (Host : FExportHost) (Exporters : List UExporter)
    (ObjectsToExport : List (Option UObject)) (SaveFileNameList : List String) :
    Except Fault (List UAssetExportTask) :=
  ObjectLoop Host Exporters SaveFileNameList 0 ObjectsToExport

/-! ## `ExportLightmap` -/

/-- The suffix `LightmapPostfix`. -/
def LightmapPostfix : String := ".png"

/-- The loop of `ExportLightmap` over `AllLightmaps`, with the two arrays
`LightmapObjs` and `LightmapNames` built so far.  `Equals` is the comparison
`FString::operator==` that `LightmapNames.Contains` uses, engine code that is
not part of the repository. -/
def LightmapLoop (Equals : String → String → Bool) (ExportPath : String) :
    List (Option UTexture2D) → List UObject × List String → List UObject × List String
  | [], Lists => Lists
  | none :: Rest, Lists => LightmapLoop Equals ExportPath Rest Lists
  | some Obj :: Rest, (LightmapObjs, LightmapNames) =>
    let ObjExportName := Combine ExportPath (Obj.Name ++ LightmapPostfix)
    if LightmapNames.any (fun Name => Equals Name ObjExportName) == false then
      LightmapLoop Equals ExportPath Rest
        (LightmapObjs ++ [Obj], LightmapNames ++ [ObjExportName])
    else
      LightmapLoop Equals ExportPath Rest (LightmapObjs, LightmapNames)

/-- The arrays `LightmapObjs` and `LightmapNames` that `ExportLightmap` hands to
`ExportObjects`. -/
def LightmapLists (Equals : String → String → Bool) (ExportPath : String)
    (AllLightmaps : List (Option UTexture2D)) : List UObject × List String :=
  LightmapLoop Equals ExportPath AllLightmaps ([], [])

/-- The function `ExportLightmap` up to its call of `ExportObjects`: the export
tasks of the lightmap textures.  `SelectedDirectory` is the answer of
`PromptUserForDirectory`, `none` when the user cancels; `AllLightmaps` is what
`World->GetLightMapsAndShadowMaps` returns.  The call of
`ExportPrimitiveLightmapInfoInWorld(World, ExportPath)` that follows acts on the
file system `ExportObjects` leaves behind. -/
def ExportLightmap (Host : FExportHost) (Exporters : List UExporter)
    (Equals : String → String → Bool) (World : UWorld) (SelectedDirectory : Option String)
    (AllLightmaps : List (Option UTexture2D)) : Except Fault (List UAssetExportTask) :=
  match SelectedDirectory with
  | none => Except.ok []
  | some SelectedDirectory =>
    let ExportPath := Combine SelectedDirectory World.Name
    let Lists := LightmapLists Equals ExportPath AllLightmaps
    ExportObjects Host Exporters (Lists.1.map some) Lists.2

/-- The destination file name of a lightmap texture:
`<ExportPath>/<TextureName>.png`. -/
def SpecTextureFileName (ExportPath : String) (Texture : UObject) : String :=
  ExportPath ++ "/" ++ Texture.Name ++ ".png"

/-- The candidates of section 6 for an object and a file extension: the
exporters that support the object and declare the extension, up to case, or
the extension `*`. -/
def SpecCandidates (Extension : String) (ObjectToExport : UObject)
    (Exporters : List UExporter) : List UExporter :=
  Exporters.filter (fun Exporter =>
    Exporter.SupportsObject ObjectToExport &&
    Exporter.FormatExtension.any (fun FormatExtension =>
      decide (LowerChars FormatExtension = LowerChars Extension) || FormatExtension == "*"))

/-- The fault of a run over the actors of a level: none when the level has a
registry; without one, the null dereference at the first component that makes
the loop reach the registry. -/
def SpecFault (Registry : Option UMapBuildDataRegistry) (Actors : List (Option AActor)) :
    Option Fault :=
  match Registry with
  | some _ => none
  | none => if Actors.any ActorReachesRegistry then some Fault.NullDereference else none

/-- The test used to find the texture behind a destination name: a non-null
texture whose destination file name is `Name`. -/
def IsTextureFor (ExportPath Name : String) : Option UTexture2D → Bool
  | none => false
  | some Texture => decide (SpecTextureFileName ExportPath Texture = Name)

/-- The sequence of (file name, document) writes of one run of the export:
empty when the world is null or the directory is missing. -/
def ExportWrites (World : Option UWorld) (ExportPath : String) (FileSystem : FFileSystem) :
    List (String × FJsonObject) :=
  match World with
  | none => []
  | some World =>
    if FileSystem.DirectoryExists ExportPath then SpecWrites World ExportPath else []

/-- The scene without the actors that carry a given display name. -/
def WithoutActorsNamed (ActorName : String) (World : UWorld) : UWorld :=
  { World with
    PersistentLevel :=
      { World.PersistentLevel with
        Actors := World.PersistentLevel.Actors.filter (fun Actor =>
          match Actor with
          | none => true
          | some A => A.ActorNameOrLabel != ActorName) } }

/-! ## Sample data -/

/-- A stand-in for the JSON writer, used on sample data only: it prints the
string fields of the top level of a document and names the other fields. -/
def SampleFieldText : String × FJsonValue → String
  | (Name, FJsonValue.String Value) => Name ++ "=" ++ Value ++ ";"
  | (Name, _) => Name ++ ";"

/-- The sample serializer: never fails. -/
def SampleSerialize (Obj : FJsonObject) : Option String :=
  some (String.join (Obj.Values.map SampleFieldText))

/-- A file system with the one directory `Out`, no file, and no write
failure. -/
def SampleFileSystem : FFileSystem :=
  { DirectoryExists := fun Path => Path == "Out"
    CanWrite := fun _ => true
    Files := fun _ => none }

/-- The lightmap of the concrete scenario of section 8. -/
def WallLightMap : FLightMap2D :=
  { GetTexture := fun i =>
      if i = 0 then ⟨1, "Lightmap_HQ", "TextureExporterPNG", false, false⟩
      else ⟨2, "Lightmap_LQ", "TextureExporterPNG", false, false⟩
    CoordinateScale := ⟨1, 1⟩
    CoordinateBias := ⟨0, 0⟩
    ScaleVectors := fun _ => ⟨0, 0, 0, 1⟩
    AddVectors := fun _ => ⟨0, 0, 0, 1⟩ }

/-- A registry that knows the one identifier `LOD0-ID`. -/
def SampleRegistry : UMapBuildDataRegistry :=
  { GetMeshBuildData := fun Id => if Id = ⟨"LOD0-ID"⟩ then some ⟨WallLightMap⟩ else none }

/-- The mesh component `Body` of the concrete scenario. -/
def BodyComponent : UStaticMeshComponent :=
  { Name := "Body", LODData := [⟨⟨"LOD0-ID"⟩⟩], StaticLightMapResolution := 256 }

/-- The actor `Wall_01` of the concrete scenario. -/
def WallActor : AActor :=
  { ActorNameOrLabel := "Wall_01"
    ActorGuid := ⟨"ABCD"⟩
    Components := [some (UActorComponent.StaticMesh BodyComponent)] }

/-- The scene of the concrete scenario. -/
def WallWorld : UWorld :=
  { Name := "Level"
    PersistentLevel := { Actors := [some WallActor], MapBuildData := some SampleRegistry } }

/-- A second actor that carries the display name of the first. -/
def WallActorTwin : AActor :=
  { ActorNameOrLabel := "Wall_01"
    ActorGuid := ⟨"EF01"⟩
    Components := [none, some (UActorComponent.Other "Root"),
      some (UActorComponent.StaticMesh BodyComponent)] }

/-- An actor without any resolvable component. -/
def EmptyActor : AActor :=
  { ActorNameOrLabel := "Empty"
    ActorGuid := ⟨"0000"⟩
    Components := [some (UActorComponent.Primitive "Box"),
      some (UActorComponent.StaticMesh ⟨"NoLOD", [], 64⟩),
      some (UActorComponent.StaticMesh ⟨"Unbuilt", [⟨⟨"MISSING"⟩⟩], 64⟩)] }

/-- A scene in which two qualifying actors share the display name `Wall_01`. -/
def TwinWorld : UWorld :=
  { Name := "Level"
    PersistentLevel :=
      { Actors := [some WallActor, none, some EmptyActor, some WallActorTwin]
        MapBuildData := some SampleRegistry } }

/-- A third actor, with a name of its own. -/
def FloorActor : AActor :=
  { ActorNameOrLabel := "Floor"
    ActorGuid := ⟨"F100"⟩
    Components := [some (UActorComponent.StaticMesh BodyComponent)] }

/-- A scene with two qualifying actors of different names. -/
def TwoRoomWorld : UWorld :=
  { Name := "Level"
    PersistentLevel :=
      { Actors := [some WallActor, some FloorActor], MapBuildData := some SampleRegistry } }

/-- A registry that is present and holds no record. -/
def EmptyRegistry : UMapBuildDataRegistry :=
  { GetMeshBuildData := fun _ => none }

/-- A level whose lighting was never built: the actor `Empty`, none of whose
mesh components has LOD data with a record, then the mesh of `Wall_01`, and no
build-data registry. -/
def UnbuiltWorld : UWorld :=
  { Name := "Level"
    PersistentLevel :=
      { Actors := [some ⟨"Empty", ⟨"0000"⟩,
            [some (UActorComponent.Primitive "Box"),
             some (UActorComponent.StaticMesh ⟨"NoLOD", [], 64⟩)]⟩,
          some WallActor]
        MapBuildData := none } }

/-- The sample file system in which the file of `Wall_01` cannot be written. -/
def ReadOnlyWallFileSystem : FFileSystem :=
  { SampleFileSystem with CanWrite := fun Path => Path != "Out/Wall_01.json" }

/-- Sample host services: the path is what precedes the last slash, the
extension is what follows the last dot. -/
def SampleHost : FExportHost :=
  { GetPath := fun Name =>
      String.mk (((Name.data.reverse.dropWhile (fun c => c != '/')).drop 1).reverse)
    GetExtension := fun Name =>
      String.mk ((Name.data.reverse.takeWhile (fun c => c != '.')).reverse)
    MakeDirectory := fun _ => true
    IsReadOnly := fun _ => false
    RunAssetExportTask := fun _ => false }

/-- Three sample exporters: two write PNG files, one writes anything. -/
def SampleExporters : List UExporter :=
  [{ ClassName := "TextureExporterBMP", FormatExtension := ["BMP"],
     FormatDescription := ["Windows Bitmap"], SupportsObject := fun _ => true },
   { ClassName := "TextureExporterGeneric", FormatExtension := ["TGA", "*"],
     FormatDescription := ["Targa", "Any"], SupportsObject := fun _ => true },
   { ClassName := "TextureExporterPNG", FormatExtension := ["PNG"],
     FormatDescription := ["Portable Network Graphics"], SupportsObject := fun _ => true }]

/-- Sample lightmap textures: two of them share a name, one is null. -/
def SampleLightmaps : List (Option UTexture2D) :=
  [some ⟨1, "Lightmap_HQ", "TextureExporterPNG", false, false⟩,
   none,
   some ⟨2, "Lightmap_LQ", "TextureExporterPNG", false, false⟩,
   some ⟨3, "Lightmap_HQ", "TextureExporterPNG", false, false⟩]

/-- A sample comparison of strings: equality up to the case of letters. -/
def SampleEquals (A B : String) : Bool :=
  decide (LowerChars A = LowerChars B)

/-! ## Lemmas on the component loop -/

theorem entry_eq_spec (SMComp : UStaticMeshComponent) (Id : FGuid) (BuildData : FMeshMapBuildData) :
    FJsonValue.Object (AddLightmapFields
      (((FJsonObject.New.SetStringField "ComponentName" SMComp.Name).SetStringField
        "ComponentGuid" Id.ToString).SetNumberField "LightmapSize"
        (SMComp.StaticLightMapResolution : ℚ)) BuildData).Values
      = SpecComponentEntry SMComp Id BuildData := by
  simp [AddLightmapFields, FJsonObject.SetStringField, FJsonObject.SetNumberField,
    FJsonObject.SetArrayField, FJsonObject.SetField, FJsonObject.New, SpecComponentEntry,
    SpecVectorArray, ConvertVectorToJsonArray, FVector4d]

theorem ComponentLoop_eq (Registry : UMapBuildDataRegistry)
    (Components : List (Option UActorComponent)) (JsonComponents : List FJsonValue) :
    ComponentLoop (some Registry) Components JsonComponents
      = Except.ok (JsonComponents ++ Components.filterMap (SpecEntryOf (some Registry))) := by
  induction Components generalizing JsonComponents with
  | nil => simp [ComponentLoop]
  | cons Comp Rest ih =>
    cases Comp with
    | none => simp [ComponentLoop, ih, SpecEntryOf]
    | some C =>
      cases C with
      | Primitive n =>
        simp [ComponentLoop, ih, SpecEntryOf, UActorComponent.IsPrimitiveComponent,
          UActorComponent.CastStaticMeshComponent]
      | Other n =>
        simp [ComponentLoop, ih, SpecEntryOf, UActorComponent.IsPrimitiveComponent]
      | StaticMesh SMComp =>
        rcases hl : SMComp.LODData with _ | ⟨LOD0, LODs⟩
        · simp [ComponentLoop, ih, SpecEntryOf, UActorComponent.IsPrimitiveComponent,
            UActorComponent.CastStaticMeshComponent, hl]
        · rcases hg : Registry.GetMeshBuildData LOD0.MapBuildDataId with _ | BuildData
          · simp [ComponentLoop, ih, SpecEntryOf, SpecLookup,
              UActorComponent.IsPrimitiveComponent,
              UActorComponent.CastStaticMeshComponent, hl, hg]
          · simp only [ComponentLoop, UActorComponent.IsPrimitiveComponent,
              UActorComponent.CastStaticMeshComponent, hl, hg, SpecEntryOf, SpecLookup, ih,
              List.filterMap_cons, Option.map_some', entry_eq_spec]
            simp

theorem ComponentLoop_null (Components : List (Option UActorComponent))
    (JsonComponents : List FJsonValue) :
    ComponentLoop none Components JsonComponents
      = if Components.any ReachesRegistry then Except.error Fault.NullDereference
        else Except.ok JsonComponents := by
  induction Components generalizing JsonComponents with
  | nil => simp [ComponentLoop]
  | cons Comp Rest ih =>
    cases Comp with
    | none => simp [ComponentLoop, ih, ReachesRegistry]
    | some C =>
      cases C with
      | Primitive n =>
        simp [ComponentLoop, ih, ReachesRegistry, UActorComponent.IsPrimitiveComponent,
          UActorComponent.CastStaticMeshComponent]
      | Other n =>
        simp [ComponentLoop, ih, ReachesRegistry, UActorComponent.IsPrimitiveComponent]
      | StaticMesh SMComp =>
        rcases hl : SMComp.LODData with _ | ⟨LOD0, LODs⟩
        · simp [ComponentLoop, ih, ReachesRegistry, UActorComponent.IsPrimitiveComponent,
            UActorComponent.CastStaticMeshComponent, hl]
        · simp [ComponentLoop, ReachesRegistry, UActorComponent.IsPrimitiveComponent,
            UActorComponent.CastStaticMeshComponent, hl]

theorem SpecEntryOf_null (Comp : Option UActorComponent) : SpecEntryOf none Comp = none := by
  cases Comp with
  | none => rfl
  | some C =>
    cases C with
    | Primitive n => rfl
    | Other n => rfl
    | StaticMesh SMComp =>
      rcases hl : SMComp.LODData with _ | ⟨LOD0, LODs⟩ <;> simp [SpecEntryOf, SpecLookup, hl]

theorem filterMap_SpecEntryOf_null (Components : List (Option UActorComponent)) :
    Components.filterMap (SpecEntryOf none) = [] := by
  induction Components with
  | nil => rfl
  | cons C Rest ih => simp [List.filterMap_cons, SpecEntryOf_null, ih]

theorem SpecEntryOf_isSome_iff (Registry : Option UMapBuildDataRegistry)
    (Comp : Option UActorComponent) :
    (SpecEntryOf Registry Comp).isSome = true ↔ Resolvable Registry Comp := by
  constructor
  · intro h
    cases Comp with
    | none => simp [SpecEntryOf] at h
    | some C =>
      cases C with
      | Primitive n => simp [SpecEntryOf] at h
      | Other n => simp [SpecEntryOf] at h
      | StaticMesh SMComp =>
        rcases hl : SMComp.LODData with _ | ⟨LOD0, LODs⟩
        · simp [SpecEntryOf, hl] at h
        · rcases hg : SpecLookup Registry LOD0.MapBuildDataId with _ | BuildData
          · simp [SpecEntryOf, hl, hg] at h
          · exact ⟨SMComp, LOD0, LODs, BuildData, rfl, hl, hg⟩
  · rintro ⟨SMComp, LOD0, LODs, BuildData, rfl, hl, hg⟩
    simp [SpecEntryOf, hl, hg]

/-! ## Lemmas on the actor loop and the file system -/

theorem ActorStep_eq (Serialize : FJsonObject → Option String)
    (Registry : Option UMapBuildDataRegistry)
    (ExportPath : String) (FileSystem : FFileSystem) (Actor : Option AActor) :
    ActorStep Serialize Registry ExportPath FileSystem Actor
      = ⟨match SpecWriteOf Registry ExportPath Actor with
          | none => FileSystem
          | some Write => PerformWrite Serialize FileSystem Write,
         SpecFault Registry [Actor]⟩ := by
  cases Actor with
  | none => cases Registry <;> simp [ActorStep, SpecWriteOf, SpecFault, ActorReachesRegistry]
  | some A =>
    cases Registry with
    | none =>
      simp only [ActorStep, SpecWriteOf, ComponentLoop_null, filterMap_SpecEntryOf_null,
        SpecFault, List.any_cons, List.any_nil, Bool.or_false, ActorReachesRegistry]
      by_cases h : A.Components.any ReachesRegistry = true
      · simp [h]
      · simp [h]
    | some R =>
      simp only [ActorStep, SpecWriteOf, ComponentLoop_eq, List.nil_append, SpecFault]
      rcases A.Components.filterMap (SpecEntryOf (some R)) with _ | ⟨Entry, Entries⟩
      · simp
      · simp [PerformWrite, SpecDocument, SpecFileName, Combine, FJsonObject.SetArrayField,
          FJsonObject.SetStringField, FJsonObject.SetField, FJsonObject.New,
          String.append_assoc]
        cases Serialize
          ⟨[("ActorName", FJsonValue.String A.ActorNameOrLabel),
            ("ActorGuid", FJsonValue.String A.ActorGuid.ToString),
            ("Components", FJsonValue.Array (Entry :: Entries))]⟩ <;> rfl

theorem SpecWriteOf_null (ExportPath : String) (Actor : Option AActor) :
    SpecWriteOf none ExportPath Actor = none := by
  cases Actor with
  | none => rfl
  | some A => simp [SpecWriteOf, filterMap_SpecEntryOf_null]

theorem filterMap_SpecWriteOf_null (ExportPath : String) (Actors : List (Option AActor)) :
    Actors.filterMap (SpecWriteOf none ExportPath) = [] := by
  induction Actors with
  | nil => rfl
  | cons A Rest ih => simp [List.filterMap_cons, SpecWriteOf_null, ih]

theorem ActorLoop_eq (Serialize : FJsonObject → Option String)
    (Registry : Option UMapBuildDataRegistry)
    (ExportPath : String) (Actors : List (Option AActor)) (FileSystem : FFileSystem) :
    ActorLoop Serialize Registry ExportPath Actors FileSystem
      = ⟨(Actors.filterMap (SpecWriteOf Registry ExportPath)).foldl
          (PerformWrite Serialize) FileSystem, SpecFault Registry Actors⟩ := by
  induction Actors generalizing FileSystem with
  | nil => cases Registry <;> rfl
  | cons Actor Rest ih =>
    rw [ActorLoop, ActorStep_eq]
    cases Registry with
    | none =>
      simp only [SpecWriteOf_null, SpecFault, List.any_cons, List.any_nil, Bool.or_false,
        List.filterMap_cons, ih, filterMap_SpecWriteOf_null, List.foldl_nil]
      by_cases h : ActorReachesRegistry Actor = true
      · simp [h]
      · simp only [Bool.not_eq_true] at h
        simp [h]
    | some R =>
      simp only [SpecFault, ih]
      cases h : SpecWriteOf (some R) ExportPath Actor <;> simp [List.filterMap_cons, h]

theorem Export_eq (Serialize : FJsonObject → Option String) (World : UWorld)
    (ExportPath : String) (FileSystem : FFileSystem)
    (hdir : FileSystem.DirectoryExists ExportPath = true) :
    ExportPrimitiveLightmapInfoInWorld Serialize (some World) ExportPath FileSystem
      = ⟨(SpecWrites World ExportPath).foldl (PerformWrite Serialize) FileSystem,
         SpecFault World.PersistentLevel.MapBuildData World.PersistentLevel.Actors⟩ := by
  simp [ExportPrimitiveLightmapInfoInWorld, hdir, ActorLoop_eq, SpecWrites]

theorem LastSaved_append (Path : String) (A B : List (String × String)) :
    LastSaved Path (A ++ B)
      = match LastSaved Path B with
        | some Content => some Content
        | none => LastSaved Path A := by
  induction A with
  | nil => cases h : LastSaved Path B <;> simp [LastSaved, h]
  | cons a A ih =>
    obtain ⟨f, c⟩ := a
    show (match LastSaved Path (A ++ B) with
      | some Later => some Later
      | none => if Path = f then some c else none) = _
    rw [ih]
    cases h : LastSaved Path B <;> simp [LastSaved]

theorem PerformWrite_fields (Serialize : FJsonObject → Option String) (FileSystem : FFileSystem)
    (Write : String × FJsonObject) :
    (PerformWrite Serialize FileSystem Write).DirectoryExists = FileSystem.DirectoryExists ∧
    (PerformWrite Serialize FileSystem Write).CanWrite = FileSystem.CanWrite ∧
    (PerformWrite Serialize FileSystem Write).Files
      = FilesAfter FileSystem.Files (SuccessfulSaves Serialize FileSystem.CanWrite [Write]) := by
  unfold PerformWrite SaveStringToFile
  cases hs : Serialize Write.2 with
  | none =>
    refine ⟨rfl, rfl, ?_⟩
    funext Path
    by_cases hw : FileSystem.CanWrite Write.1 <;>
      simp [FilesAfter, SuccessfulSaves, hs, hw, LastSaved]
  | some Content =>
    by_cases hw : FileSystem.CanWrite Write.1 = true
    · simp only [hw, if_true]
      refine ⟨by simp, by simp, ?_⟩
      funext Path
      by_cases hp : Path = Write.1 <;>
        simp [FilesAfter, SuccessfulSaves, hs, hw, LastSaved, hp]
    · simp only [hw]
      refine ⟨by simp, by simp, ?_⟩
      funext Path
      simp [FilesAfter, SuccessfulSaves, hw, LastSaved]

theorem FilesAfter_append (Files : String → Option String) (A B : List (String × String)) :
    FilesAfter (FilesAfter Files A) B = FilesAfter Files (A ++ B) := by
  funext Path
  simp only [FilesAfter, LastSaved_append]
  cases h : LastSaved Path B <;> simp

theorem foldl_PerformWrite (Serialize : FJsonObject → Option String)
    (Writes : List (String × FJsonObject)) (FileSystem : FFileSystem) :
    Writes.foldl (PerformWrite Serialize) FileSystem
      = { FileSystem with
          Files := FilesAfter FileSystem.Files
            (SuccessfulSaves Serialize FileSystem.CanWrite Writes) } := by
  induction Writes generalizing FileSystem with
  | nil =>
    cases FileSystem
    simp only [List.foldl_nil, SuccessfulSaves, List.filterMap_nil]
    congr
  | cons W Rest ih =>
    obtain ⟨h1, h2, h3⟩ := PerformWrite_fields Serialize FileSystem W
    rw [List.foldl_cons, ih, h1, h2, h3, FilesAfter_append]
    have : SuccessfulSaves Serialize FileSystem.CanWrite (W :: Rest)
        = SuccessfulSaves Serialize FileSystem.CanWrite [W]
          ++ SuccessfulSaves Serialize FileSystem.CanWrite Rest := by
      simp only [SuccessfulSaves]
      rw [← List.filterMap_append]
      rfl
    rw [this]

theorem SpecFileName_injective (ExportPath A B : String)
    (h : SpecFileName ExportPath A = SpecFileName ExportPath B) : A = B := by
  have h1 := congrArg String.data h
  simp only [SpecFileName, String.data_append] at h1
  have h2 := List.append_cancel_right h1
  have h3 := List.append_cancel_left h2
  exact String.ext h3

theorem LastSaved_cons_ne (Path FileName Content : String) (Saves : List (String × String))
    (h : Path ≠ FileName) :
    LastSaved Path ((FileName, Content) :: Saves) = LastSaved Path Saves := by
  simp only [LastSaved, if_neg h]
  cases LastSaved Path Saves <;> rfl

theorem LastSaved_eq_none (Path : String) (Saves : List (String × String))
    (h : ∀ Save ∈ Saves, Save.1 ≠ Path) : LastSaved Path Saves = none := by
  induction Saves with
  | nil => rfl
  | cons Save Rest ih =>
    obtain ⟨f, c⟩ := Save
    have hne : Path ≠ f := fun e => h (f, c) (List.mem_cons_self _ _) e.symm
    rw [LastSaved_cons_ne _ _ _ _ hne]
    exact ih (fun S hS => h S (List.mem_cons_of_mem _ hS))

theorem LastSaved_mem (Path Content : String) (Saves : List (String × String))
    (h : LastSaved Path Saves = some Content) : (Path, Content) ∈ Saves := by
  induction Saves with
  | nil => simp [LastSaved] at h
  | cons Save Rest ih =>
    obtain ⟨f, c⟩ := Save
    simp only [LastSaved] at h
    cases hr : LastSaved Path Rest with
    | some Later =>
      rw [hr] at h
      simp only [Option.some.injEq] at h
      subst h
      exact List.mem_cons_of_mem _ (ih hr)
    | none =>
      rw [hr] at h
      by_cases hp : Path = f
      · simp only [hp, if_true, Option.some.injEq] at h
        subst h
        subst hp
        exact List.mem_cons_self _ _
      · simp [hp] at h

theorem LastSaved_isSome (Path Content : String) (Saves : List (String × String))
    (h : (Path, Content) ∈ Saves) : (LastSaved Path Saves).isSome = true := by
  induction Saves with
  | nil => simp at h
  | cons Save Rest ih =>
    obtain ⟨f, c⟩ := Save
    simp only [LastSaved]
    cases hr : LastSaved Path Rest with
    | some Later => rfl
    | none =>
      rcases List.mem_cons.1 h with h1 | h1
      · simp only [Prod.mk.injEq] at h1
        simp [h1.1]
      · have := ih h1
        rw [hr] at this
        simp at this

theorem mem_SuccessfulSaves (Serialize : FJsonObject → Option String) (CanWrite : String → Bool)
    (Writes : List (String × FJsonObject)) (FileName Content : String) :
    (FileName, Content) ∈ SuccessfulSaves Serialize CanWrite Writes
      ↔ ∃ Write ∈ Writes, Write.1 = FileName ∧ CanWrite FileName = true ∧
          Serialize Write.2 = some Content := by
  simp only [SuccessfulSaves, List.mem_filterMap]
  constructor
  · rintro ⟨W, hW, h⟩
    by_cases hc : CanWrite W.1 = true
    · simp only [hc, if_true, Option.map_eq_some', Prod.mk.injEq] at h
      obtain ⟨c, hs, h1, h2⟩ := h
      subst h1 h2
      exact ⟨W, hW, rfl, hc, hs⟩
    · simp [hc] at h
  · rintro ⟨W, hW, rfl, hc, hs⟩
    exact ⟨W, hW, by simp [hc, hs]⟩

theorem SuccessfulSaves_append (Serialize : FJsonObject → Option String)
    (CanWrite : String → Bool) (A B : List (String × FJsonObject)) :
    SuccessfulSaves Serialize CanWrite (A ++ B)
      = SuccessfulSaves Serialize CanWrite A ++ SuccessfulSaves Serialize CanWrite B := by
  simp [SuccessfulSaves, List.filterMap_append]

theorem Export_files (Serialize : FJsonObject → Option String) (World : UWorld)
    (ExportPath : String) (FileSystem : FFileSystem)
    (hdir : FileSystem.DirectoryExists ExportPath = true) :
    (ExportPrimitiveLightmapInfoInWorld Serialize (some World) ExportPath FileSystem).FileSystem
      = { FileSystem with
          Files := FilesAfter FileSystem.Files
            (SuccessfulSaves Serialize FileSystem.CanWrite (SpecWrites World ExportPath)) } := by
  rw [Export_eq _ _ _ _ hdir, foldl_PerformWrite]

theorem Export_eq_writes (Serialize : FJsonObject → Option String) (World : Option UWorld)
    (ExportPath : String) (FileSystem : FFileSystem) :
    (ExportPrimitiveLightmapInfoInWorld Serialize World ExportPath FileSystem).FileSystem
      = (ExportWrites World ExportPath FileSystem).foldl (PerformWrite Serialize) FileSystem := by
  cases World with
  | none => rfl
  | some W =>
    by_cases hdir : FileSystem.DirectoryExists ExportPath = true
    · rw [Export_eq _ _ _ _ hdir]
      simp [ExportWrites, hdir]
    · simp [ExportPrimitiveLightmapInfoInWorld, ExportWrites, hdir]

theorem Export_preserves (Serialize : FJsonObject → Option String) (World : Option UWorld)
    (ExportPath : String) (FileSystem : FFileSystem) :
    (ExportPrimitiveLightmapInfoInWorld Serialize World ExportPath
        FileSystem).FileSystem.DirectoryExists = FileSystem.DirectoryExists
    ∧ (ExportPrimitiveLightmapInfoInWorld Serialize World ExportPath
        FileSystem).FileSystem.CanWrite = FileSystem.CanWrite := by
  rw [Export_eq_writes, foldl_PerformWrite]
  exact ⟨rfl, rfl⟩

theorem FilesAfter_twice (Files : String → Option String) (Saves : List (String × String)) :
    FilesAfter (FilesAfter Files Saves) Saves = FilesAfter Files Saves := by
  funext Path
  simp only [FilesAfter]
  cases h : LastSaved Path Saves <;> simp

theorem SpecWriteOf_isSome_iff (Registry : Option UMapBuildDataRegistry) (ExportPath : String)
    (Actor : Option AActor) :
    (SpecWriteOf Registry ExportPath Actor).isSome = true ↔ Qualifies Registry Actor := by
  cases Actor with
  | none => simp [SpecWriteOf, Qualifies]
  | some A =>
    simp only [SpecWriteOf, Qualifies, Option.some.injEq, exists_eq_left']
    constructor
    · intro h
      rcases hf : A.Components.filterMap (SpecEntryOf Registry) with _ | ⟨Entry, Entries⟩
      · simp [hf] at h
      · have hm : Entry ∈ A.Components.filterMap (SpecEntryOf Registry) := by simp [hf]
        obtain ⟨Comp, hC, hE⟩ := List.mem_filterMap.1 hm
        exact ⟨Comp, hC, (SpecEntryOf_isSome_iff Registry Comp).1 (by simp [hE])⟩
    · rintro ⟨Comp, hC, hR⟩
      have hs := (SpecEntryOf_isSome_iff Registry Comp).2 hR
      obtain ⟨Entry, hE⟩ := Option.isSome_iff_exists.1 hs
      have hm : Entry ∈ A.Components.filterMap (SpecEntryOf Registry) :=
        List.mem_filterMap.2 ⟨Comp, hC, hE⟩
      rcases hf : A.Components.filterMap (SpecEntryOf Registry) with _ | ⟨E, Es⟩
      · simp [hf] at hm
      · rfl

theorem SpecWriteOf_fileName (Registry : Option UMapBuildDataRegistry) (ExportPath : String)
    (Actor : AActor) (Write : String × FJsonObject)
    (h : SpecWriteOf Registry ExportPath (some Actor) = some Write) :
    Write.1 = SpecFileName ExportPath Actor.ActorNameOrLabel := by
  simp only [SpecWriteOf] at h
  rcases hf : Actor.Components.filterMap (SpecEntryOf Registry) with _ | ⟨Entry, Entries⟩
  · simp [hf] at h
  · simp only [hf, Option.some.injEq] at h
    rw [← h]


/-! ## The component entries (claims C2 and C3) -/

theorem JsonComponentsOf_eq (Registry : UMapBuildDataRegistry)
    (Components : List (Option UActorComponent)) :
    JsonComponentsOf (some Registry) Components
      = Except.ok (Components.filterMap (SpecEntryOf (some Registry))) := by
  simp [JsonComponentsOf, ComponentLoop_eq]

/-- The component loop in full.  On a level with a registry it ends without a
fault, and its array is, in iteration order, the list of the entries of exactly
the components whose LOD-0 identifier resolves.  On a level without a registry
it faults as soon as a component reaches the lookup, and otherwise ends with an
empty array. -/
theorem JsonComponentsOf_cases (Registry : Option UMapBuildDataRegistry)
    (Components : List (Option UActorComponent)) :
    JsonComponentsOf Registry Components
      = match Registry with
        | some R => Except.ok (Components.filterMap (SpecEntryOf (some R)))
        | none =>
          if Components.any ReachesRegistry then Except.error Fault.NullDereference
          else Except.ok [] := by
  cases Registry with
  | none => simp [JsonComponentsOf, ComponentLoop_null]
  | some R => simp [JsonComponentsOf_eq]

/-- C2: the code faults where the claim promises that no error is caused.  The
level `UnbuiltWorld` has no build data; the mesh component `Body` has one LOD
entry, whose identifier therefore cannot resolve.  The loop does not skip the
component: it calls `GetMeshBuildData` through the null registry pointer and
stops with a fault, and so does the export of the level, which writes nothing.
With a registry that is present and holds no record the same component is
skipped without a fault, and the components that never reach the lookup (a
null one, one that is no mesh, a mesh without LOD data) are skipped on the
unbuilt level as well. -/
theorem C2_unbuilt_level_faults :
    UnbuiltWorld.PersistentLevel.MapBuildData = none
    ∧ BodyComponent.LODData = [⟨⟨"LOD0-ID"⟩⟩]
    ∧ ¬ Resolvable none (some (UActorComponent.StaticMesh BodyComponent))
    ∧ JsonComponentsOf none [some (UActorComponent.StaticMesh BodyComponent)]
        = Except.error Fault.NullDereference
    ∧ JsonComponentsOf (some EmptyRegistry) [some (UActorComponent.StaticMesh BodyComponent)]
        = Except.ok []
    ∧ JsonComponentsOf none
        [none, some (UActorComponent.Primitive "Box"),
         some (UActorComponent.StaticMesh ⟨"NoLOD", [], 64⟩)] = Except.ok []
    ∧ (ExportPrimitiveLightmapInfoInWorld SampleSerialize (some UnbuiltWorld) "Out"
        SampleFileSystem).Fault = some Fault.NullDereference
    ∧ (ExportPrimitiveLightmapInfoInWorld SampleSerialize (some UnbuiltWorld) "Out"
        SampleFileSystem).FileSystem = SampleFileSystem := by
  refine ⟨rfl, rfl, ?_, rfl, rfl, rfl, rfl, rfl⟩
  rintro ⟨SMComp, LOD0, Rest, BuildData, _, _, h⟩
  simp [SpecLookup] at h

/-- C3: the entry of a component whose LOD-0 identifier resolves carries the
input data verbatim: name, identifier in string form, lightmap resolution, the
names of textures 0 and 1, `[scaleX, scaleY, biasX, biasY]`, and the eight
vectors as `[X, Y, Z, W]`, the high-quality fields from indices 0 and 1 and the
low-quality fields from indices 2 and 3 of `ScaleVectors` and `AddVectors`.
The entry stands between the entries of the components before it and those of
the components after it. -/
theorem C3_component_entry_verbatim (Registry : UMapBuildDataRegistry)
    (Before After : List (Option UActorComponent)) (SMComp : UStaticMeshComponent)
    (LOD0 : FStaticMeshComponentLODInfo) (Rest : List FStaticMeshComponentLODInfo)
    (BuildData : FMeshMapBuildData)
    (hlod : SMComp.LODData = LOD0 :: Rest)
    (hfound : Registry.GetMeshBuildData LOD0.MapBuildDataId = some BuildData) :
    (∃ EntriesBefore EntriesAfter,
      JsonComponentsOf (some Registry) Before = Except.ok EntriesBefore
      ∧ JsonComponentsOf (some Registry) After = Except.ok EntriesAfter
      ∧ JsonComponentsOf (some Registry)
          (Before ++ some (UActorComponent.StaticMesh SMComp) :: After)
        = Except.ok (EntriesBefore ++
          FJsonValue.Object
            [("ComponentName", FJsonValue.String SMComp.Name),
             ("ComponentGuid", FJsonValue.String LOD0.MapBuildDataId.ToString),
             ("LightmapSize", FJsonValue.Number (SMComp.StaticLightMapResolution : ℚ)),
             ("HQLightmapName", FJsonValue.String (BuildData.LightMap.GetTexture 0).Name),
             ("LQLightmapName", FJsonValue.String (BuildData.LightMap.GetTexture 1).Name),
             ("CoordScaleBias", FJsonValue.Array
                [FJsonValue.Number BuildData.LightMap.CoordinateScale.X,
                 FJsonValue.Number BuildData.LightMap.CoordinateScale.Y,
                 FJsonValue.Number BuildData.LightMap.CoordinateBias.X,
                 FJsonValue.Number BuildData.LightMap.CoordinateBias.Y]),
             ("HQLightmapScale0", FJsonValue.Array
                (ConvertVectorToJsonArray (BuildData.LightMap.ScaleVectors 0))),
             ("HQLightmapScale1", FJsonValue.Array
                (ConvertVectorToJsonArray (BuildData.LightMap.ScaleVectors 1))),
             ("HQLightmapAdd0", FJsonValue.Array
                (ConvertVectorToJsonArray (BuildData.LightMap.AddVectors 0))),
             ("HQLightmapAdd1", FJsonValue.Array
                (ConvertVectorToJsonArray (BuildData.LightMap.AddVectors 1))),
             ("LQLightmapScale0", FJsonValue.Array
                (ConvertVectorToJsonArray (BuildData.LightMap.ScaleVectors 2))),
             ("LQLightmapScale1", FJsonValue.Array
                (ConvertVectorToJsonArray (BuildData.LightMap.ScaleVectors 3))),
             ("LQLightmapAdd0", FJsonValue.Array
                (ConvertVectorToJsonArray (BuildData.LightMap.AddVectors 2))),
             ("LQLightmapAdd1", FJsonValue.Array
                (ConvertVectorToJsonArray (BuildData.LightMap.AddVectors 3)))]
          :: EntriesAfter))
    ∧ ∀ V : TVector4, ConvertVectorToJsonArray V
        = [FJsonValue.Number V.X, FJsonValue.Number V.Y, FJsonValue.Number V.Z,
           FJsonValue.Number V.W] := by
  refine ⟨⟨_, _, JsonComponentsOf_eq Registry Before, JsonComponentsOf_eq Registry After, ?_⟩,
    fun V => rfl⟩
  simp only [JsonComponentsOf_eq, List.filterMap_append, List.filterMap_cons]
  simp [SpecEntryOf, SpecLookup, hlod, hfound, SpecComponentEntry, SpecVectorArray,
    ConvertVectorToJsonArray]

/-- A witness of C3 on the component `Body` of the sample scene. -/
theorem C3_component_entry_verbatim_witness :
    BodyComponent.LODData = [⟨⟨"LOD0-ID"⟩⟩]
    ∧ SampleRegistry.GetMeshBuildData ⟨"LOD0-ID"⟩ = some ⟨WallLightMap⟩
    ∧ ∃ EntriesBefore EntriesAfter,
      JsonComponentsOf (some SampleRegistry) [none] = Except.ok EntriesBefore
      ∧ JsonComponentsOf (some SampleRegistry) [] = Except.ok EntriesAfter
      ∧ JsonComponentsOf (some SampleRegistry)
          ([none] ++ some (UActorComponent.StaticMesh BodyComponent) :: [])
        = Except.ok (EntriesBefore ++
          FJsonValue.Object
            [("ComponentName", FJsonValue.String "Body"),
             ("ComponentGuid", FJsonValue.String "LOD0-ID"),
             ("LightmapSize", FJsonValue.Number ((256 : Int) : ℚ)),
             ("HQLightmapName", FJsonValue.String (WallLightMap.GetTexture 0).Name),
             ("LQLightmapName", FJsonValue.String (WallLightMap.GetTexture 1).Name),
             ("CoordScaleBias", FJsonValue.Array
                [FJsonValue.Number 1, FJsonValue.Number 1, FJsonValue.Number 0,
                 FJsonValue.Number 0]),
             ("HQLightmapScale0", FJsonValue.Array (ConvertVectorToJsonArray ⟨0, 0, 0, 1⟩)),
             ("HQLightmapScale1", FJsonValue.Array (ConvertVectorToJsonArray ⟨0, 0, 0, 1⟩)),
             ("HQLightmapAdd0", FJsonValue.Array (ConvertVectorToJsonArray ⟨0, 0, 0, 1⟩)),
             ("HQLightmapAdd1", FJsonValue.Array (ConvertVectorToJsonArray ⟨0, 0, 0, 1⟩)),
             ("LQLightmapScale0", FJsonValue.Array (ConvertVectorToJsonArray ⟨0, 0, 0, 1⟩)),
             ("LQLightmapScale1", FJsonValue.Array (ConvertVectorToJsonArray ⟨0, 0, 0, 1⟩)),
             ("LQLightmapAdd0", FJsonValue.Array (ConvertVectorToJsonArray ⟨0, 0, 0, 1⟩)),
             ("LQLightmapAdd1", FJsonValue.Array (ConvertVectorToJsonArray ⟨0, 0, 0, 1⟩))]
          :: EntriesAfter) :=
  ⟨rfl, by simp [SampleRegistry],
    (C3_component_entry_verbatim SampleRegistry [none] [] BodyComponent ⟨⟨"LOD0-ID"⟩⟩ []
      ⟨WallLightMap⟩ rfl (by simp [SampleRegistry])).1⟩

/-! ## The export as a whole (claims C4, C5 and C6) -/

/-- C4: the concrete scenario of section 8.  One actor `Wall_01` with GUID
`ABCD` owns one mesh component `Body` whose LOD-0 identifier resolves to build
data with textures `Lightmap_HQ` and `Lightmap_LQ`, resolution 256, coordinate
scale (1,1), bias (0,0) and all eight vectors (0,0,0,1).  The export into an
existing directory performs exactly one write, of the file `Wall_01.json`, the
document written is the one displayed, and the run ends without a fault. -/
theorem C4_concrete_scenario (Serialize : FJsonObject → Option String)
    (Registry : UMapBuildDataRegistry) (WorldName ExportPath : String) (FileSystem : FFileSystem)
    (BuildDataId : FGuid) (MoreLODs : List FStaticMeshComponentLODInfo)
    (BuildData : FMeshMapBuildData)
    (hdir : FileSystem.DirectoryExists ExportPath = true)
    (hfound : Registry.GetMeshBuildData BuildDataId = some BuildData)
    (hHQ : (BuildData.LightMap.GetTexture 0).Name = "Lightmap_HQ")
    (hLQ : (BuildData.LightMap.GetTexture 1).Name = "Lightmap_LQ")
    (hscale : BuildData.LightMap.CoordinateScale = ⟨1, 1⟩)
    (hbias : BuildData.LightMap.CoordinateBias = ⟨0, 0⟩)
    (hscales : ∀ i, BuildData.LightMap.ScaleVectors i = ⟨0, 0, 0, 1⟩)
    (hadds : ∀ i, BuildData.LightMap.AddVectors i = ⟨0, 0, 0, 1⟩) :
    ExportPrimitiveLightmapInfoInWorld Serialize
        (some
          { Name := WorldName
            PersistentLevel :=
              { Actors :=
                  [some
                    { ActorNameOrLabel := "Wall_01"
                      ActorGuid := ⟨"ABCD"⟩
                      Components :=
                        [some (UActorComponent.StaticMesh
                          { Name := "Body"
                            LODData := ⟨BuildDataId⟩ :: MoreLODs
                            StaticLightMapResolution := 256 })] }]
                MapBuildData := some Registry } })
        ExportPath FileSystem
      = ⟨PerformWrite Serialize FileSystem
          (ExportPath ++ "/" ++ "Wall_01.json",
           ⟨[("ActorName", FJsonValue.String "Wall_01"),
             ("ActorGuid", FJsonValue.String "ABCD"),
             ("Components", FJsonValue.Array
               [FJsonValue.Object
                 [("ComponentName", FJsonValue.String "Body"),
                  ("ComponentGuid", FJsonValue.String BuildDataId.ToString),
                  ("LightmapSize", FJsonValue.Number 256),
                  ("HQLightmapName", FJsonValue.String "Lightmap_HQ"),
                  ("LQLightmapName", FJsonValue.String "Lightmap_LQ"),
                  ("CoordScaleBias", FJsonValue.Array
                    [FJsonValue.Number 1, FJsonValue.Number 1, FJsonValue.Number 0,
                     FJsonValue.Number 0]),
                  ("HQLightmapScale0", FJsonValue.Array
                    [FJsonValue.Number 0, FJsonValue.Number 0, FJsonValue.Number 0,
                     FJsonValue.Number 1]),
                  ("HQLightmapScale1", FJsonValue.Array
                    [FJsonValue.Number 0, FJsonValue.Number 0, FJsonValue.Number 0,
                     FJsonValue.Number 1]),
                  ("HQLightmapAdd0", FJsonValue.Array
                    [FJsonValue.Number 0, FJsonValue.Number 0, FJsonValue.Number 0,
                     FJsonValue.Number 1]),
                  ("HQLightmapAdd1", FJsonValue.Array
                    [FJsonValue.Number 0, FJsonValue.Number 0, FJsonValue.Number 0,
                     FJsonValue.Number 1]),
                  ("LQLightmapScale0", FJsonValue.Array
                    [FJsonValue.Number 0, FJsonValue.Number 0, FJsonValue.Number 0,
                     FJsonValue.Number 1]),
                  ("LQLightmapScale1", FJsonValue.Array
                    [FJsonValue.Number 0, FJsonValue.Number 0, FJsonValue.Number 0,
                     FJsonValue.Number 1]),
                  ("LQLightmapAdd0", FJsonValue.Array
                    [FJsonValue.Number 0, FJsonValue.Number 0, FJsonValue.Number 0,
                     FJsonValue.Number 1]),
                  ("LQLightmapAdd1", FJsonValue.Array
                    [FJsonValue.Number 0, FJsonValue.Number 0, FJsonValue.Number 0,
                     FJsonValue.Number 1])]])]⟩), none⟩ := by
  have hname : ("Wall_01" : String) ++ ".json" = "Wall_01.json" := by decide
  have hfile : ExportPath ++ "/" ++ "Wall_01" ++ ".json" = ExportPath ++ "/" ++ "Wall_01.json" := by
    rw [String.append_assoc (ExportPath ++ "/"), hname]
  rw [Export_eq _ _ _ _ hdir]
  simp [SpecWrites, SpecWriteOf, SpecEntryOf, SpecLookup, hfound, SpecFault, SpecDocument,
    SpecFileName, SpecComponentEntry, SpecVectorArray, hHQ, hLQ, hscale, hbias, hscales, hadds,
    hfile]

/-- A witness of C4: the sample registry and the sample file system. -/
theorem C4_concrete_scenario_witness :
    SampleFileSystem.DirectoryExists "Out" = true
    ∧ SampleRegistry.GetMeshBuildData ⟨"LOD0-ID"⟩ = some ⟨WallLightMap⟩
    ∧ ExportPrimitiveLightmapInfoInWorld SampleSerialize (some WallWorld) "Out" SampleFileSystem
      = ⟨PerformWrite SampleSerialize SampleFileSystem
          ("Out" ++ "/" ++ "Wall_01.json",
           ⟨[("ActorName", FJsonValue.String "Wall_01"),
             ("ActorGuid", FJsonValue.String "ABCD"),
             ("Components", FJsonValue.Array
               [FJsonValue.Object
                 [("ComponentName", FJsonValue.String "Body"),
                  ("ComponentGuid", FJsonValue.String "LOD0-ID"),
                  ("LightmapSize", FJsonValue.Number 256),
                  ("HQLightmapName", FJsonValue.String "Lightmap_HQ"),
                  ("LQLightmapName", FJsonValue.String "Lightmap_LQ"),
                  ("CoordScaleBias", FJsonValue.Array
                    [FJsonValue.Number 1, FJsonValue.Number 1, FJsonValue.Number 0,
                     FJsonValue.Number 0]),
                  ("HQLightmapScale0", FJsonValue.Array
                    [FJsonValue.Number 0, FJsonValue.Number 0, FJsonValue.Number 0,
                     FJsonValue.Number 1]),
                  ("HQLightmapScale1", FJsonValue.Array
                    [FJsonValue.Number 0, FJsonValue.Number 0, FJsonValue.Number 0,
                     FJsonValue.Number 1]),
                  ("HQLightmapAdd0", FJsonValue.Array
                    [FJsonValue.Number 0, FJsonValue.Number 0, FJsonValue.Number 0,
                     FJsonValue.Number 1]),
                  ("HQLightmapAdd1", FJsonValue.Array
                    [FJsonValue.Number 0, FJsonValue.Number 0, FJsonValue.Number 0,
                     FJsonValue.Number 1]),
                  ("LQLightmapScale0", FJsonValue.Array
                    [FJsonValue.Number 0, FJsonValue.Number 0, FJsonValue.Number 0,
                     FJsonValue.Number 1]),
                  ("LQLightmapScale1", FJsonValue.Array
                    [FJsonValue.Number 0, FJsonValue.Number 0, FJsonValue.Number 0,
                     FJsonValue.Number 1]),
                  ("LQLightmapAdd0", FJsonValue.Array
                    [FJsonValue.Number 0, FJsonValue.Number 0, FJsonValue.Number 0,
                     FJsonValue.Number 1]),
                  ("LQLightmapAdd1", FJsonValue.Array
                    [FJsonValue.Number 0, FJsonValue.Number 0, FJsonValue.Number 0,
                     FJsonValue.Number 1])]])]⟩), none⟩ :=
  ⟨rfl, by simp [SampleRegistry],
    C4_concrete_scenario SampleSerialize SampleRegistry "Level" "Out" SampleFileSystem
      ⟨"LOD0-ID"⟩ [] ⟨WallLightMap⟩ rfl (by simp [SampleRegistry]) rfl rfl rfl rfl
      (fun _ => rfl) (fun _ => rfl)⟩


theorem Export_fault (Serialize : FJsonObject → Option String) (World : Option UWorld)
    (ExportPath : String) (FileSystem : FFileSystem) :
    (ExportPrimitiveLightmapInfoInWorld Serialize World ExportPath FileSystem).Fault
      = match World with
        | none => none
        | some W =>
          if FileSystem.DirectoryExists ExportPath then
            SpecFault W.PersistentLevel.MapBuildData W.PersistentLevel.Actors
          else none := by
  cases World with
  | none => rfl
  | some W =>
    by_cases hdir : FileSystem.DirectoryExists ExportPath = true
    · rw [Export_eq _ _ _ _ hdir]
      simp [hdir]
    · simp [ExportPrimitiveLightmapInfoInWorld, hdir]

/-- C5: a second run of the export right after the first leaves every file,
and the whole file system, as the first run left it, it ends as the first run
ended, and it performs the same sequence of (file name, document) writes as
the first. -/
theorem C5_export_is_idempotent (Serialize : FJsonObject → Option String)
    (World : Option UWorld) (ExportPath : String) (FileSystem : FFileSystem) :
    ExportPrimitiveLightmapInfoInWorld Serialize World ExportPath
        (ExportPrimitiveLightmapInfoInWorld Serialize World ExportPath FileSystem).FileSystem
      = ExportPrimitiveLightmapInfoInWorld Serialize World ExportPath FileSystem
    ∧ (ExportPrimitiveLightmapInfoInWorld Serialize World ExportPath FileSystem).FileSystem
      = (ExportWrites World ExportPath FileSystem).foldl (PerformWrite Serialize) FileSystem
    ∧ ExportWrites World ExportPath
        (ExportPrimitiveLightmapInfoInWorld Serialize World ExportPath FileSystem).FileSystem
      = ExportWrites World ExportPath FileSystem := by
  obtain ⟨hd, hc⟩ := Export_preserves Serialize World ExportPath FileSystem
  have hw : ExportWrites World ExportPath
      (ExportPrimitiveLightmapInfoInWorld Serialize World ExportPath FileSystem).FileSystem
      = ExportWrites World ExportPath FileSystem := by
    cases World with
    | none => rfl
    | some W => simp only [ExportWrites, hd]
  have hfs : (ExportPrimitiveLightmapInfoInWorld Serialize World ExportPath
      (ExportPrimitiveLightmapInfoInWorld Serialize World ExportPath FileSystem).FileSystem).FileSystem
      = (ExportPrimitiveLightmapInfoInWorld Serialize World ExportPath FileSystem).FileSystem := by
    rw [Export_eq_writes Serialize World ExportPath
      (ExportPrimitiveLightmapInfoInWorld Serialize World ExportPath FileSystem).FileSystem, hw]
    rw [Export_eq_writes Serialize World ExportPath FileSystem]
    simp only [foldl_PerformWrite, FilesAfter_twice]
  have hfault : (ExportPrimitiveLightmapInfoInWorld Serialize World ExportPath
      (ExportPrimitiveLightmapInfoInWorld Serialize World ExportPath FileSystem).FileSystem).Fault
      = (ExportPrimitiveLightmapInfoInWorld Serialize World ExportPath FileSystem).Fault := by
    rw [Export_fault, Export_fault, hd]
  refine ⟨?_, Export_eq_writes _ _ _ _, hw⟩
  generalize ExportPrimitiveLightmapInfoInWorld Serialize World ExportPath
      (ExportPrimitiveLightmapInfoInWorld Serialize World ExportPath FileSystem).FileSystem
      = Second at hfs hfault
  generalize ExportPrimitiveLightmapInfoInWorld Serialize World ExportPath FileSystem
      = First at hfs hfault
  cases Second
  cases First
  simp only at hfs hfault
  rw [hfs, hfault]

/-- C6: when the output directory does not exist, or the world is null, the
export returns at once: the file system after the call is the file system
before it, no fault occurs, and the run performs no write. -/
theorem C6_missing_directory_no_side_effect (Serialize : FJsonObject → Option String)
    (World : Option UWorld) (ExportPath : String) (FileSystem : FFileSystem)
    (h : FileSystem.DirectoryExists ExportPath = false ∨ World = none) :
    ExportPrimitiveLightmapInfoInWorld Serialize World ExportPath FileSystem
      = ⟨FileSystem, none⟩
    ∧ ExportWrites World ExportPath FileSystem = [] := by
  cases World with
  | none => exact ⟨rfl, rfl⟩
  | some W =>
    rcases h with h | h
    · simp [ExportPrimitiveLightmapInfoInWorld, ExportWrites, h]
    · cases h

/-- A witness of C6: the sample scene exported to a directory that does not
exist. -/
theorem C6_missing_directory_no_side_effect_witness :
    (SampleFileSystem.DirectoryExists "Nowhere" = false ∨ some TwinWorld = none)
    ∧ ExportPrimitiveLightmapInfoInWorld SampleSerialize (some TwinWorld) "Nowhere"
        SampleFileSystem = ⟨SampleFileSystem, none⟩
    ∧ ExportWrites (some TwinWorld) "Nowhere" SampleFileSystem = [] :=
  ⟨Or.inl (by decide),
    C6_missing_directory_no_side_effect SampleSerialize (some TwinWorld) "Nowhere"
      SampleFileSystem (Or.inl (by decide))⟩

/-! ## Files and actors (claims C1, C7 and C8) -/

theorem mem_SpecWrites (World : UWorld) (ExportPath : String) (Write : String × FJsonObject) :
    Write ∈ SpecWrites World ExportPath
      ↔ ∃ Actor ∈ World.PersistentLevel.Actors,
          SpecWriteOf World.PersistentLevel.MapBuildData ExportPath Actor = some Write := by
  simp [SpecWrites, List.mem_filterMap]

theorem LastSaved_SuccessfulSaves_cons (Serialize : FJsonObject → Option String)
    (CanWrite : String → Bool) (Path : String) (Write : String × FJsonObject)
    (Writes : List (String × FJsonObject)) :
    LastSaved Path (SuccessfulSaves Serialize CanWrite (Write :: Writes))
      = match LastSaved Path (SuccessfulSaves Serialize CanWrite Writes) with
        | some Content => some Content
        | none => if Path = Write.1 ∧ CanWrite Write.1 = true then Serialize Write.2 else none := by
  have happ : SuccessfulSaves Serialize CanWrite (Write :: Writes)
      = SuccessfulSaves Serialize CanWrite [Write] ++ SuccessfulSaves Serialize CanWrite Writes :=
    SuccessfulSaves_append Serialize CanWrite [Write] Writes
  rw [happ, LastSaved_append]
  cases hr : LastSaved Path (SuccessfulSaves Serialize CanWrite Writes) with
  | some Content => rfl
  | none =>
    simp only [SuccessfulSaves, List.filterMap_cons, List.filterMap_nil]
    by_cases hc : CanWrite Write.1 = true
    · cases hs : Serialize Write.2 with
      | none => simp [hc, LastSaved]
      | some Content =>
        by_cases hp : Path = Write.1 <;> simp [hc, LastSaved, hp]
    · simp [hc, LastSaved]

theorem SpecWriteOf_of_qualifies (Registry : Option UMapBuildDataRegistry) (ExportPath : String)
    (Actor : AActor) (h : Qualifies Registry (some Actor)) :
    SpecWriteOf Registry ExportPath (some Actor)
      = some (SpecFileName ExportPath Actor.ActorNameOrLabel,
          SpecDocument Actor (Actor.Components.filterMap (SpecEntryOf Registry))) := by
  have hs := (SpecWriteOf_isSome_iff Registry ExportPath (some Actor)).2 h
  simp only [SpecWriteOf] at hs ⊢
  rcases hf : Actor.Components.filterMap (SpecEntryOf Registry) with _ | ⟨Entry, Entries⟩
  · simp [hf] at hs
  · rfl

theorem Qualifies_registry (Registry : Option UMapBuildDataRegistry) (Actor : Option AActor)
    (h : Qualifies Registry Actor) : ∃ R, Registry = some R := by
  obtain ⟨A, _, Comp, _, SMComp, LOD0, Rest, BuildData, _, _, hl⟩ := h
  cases Registry with
  | none => simp [SpecLookup] at hl
  | some R => exact ⟨R, rfl⟩

theorem saves_come_from_qualifying_actors (Serialize : FJsonObject → Option String)
    (CanWrite : String → Bool) (Registry : Option UMapBuildDataRegistry) (ExportPath : String)
    (Actors : List (Option AActor)) (Save : String × String)
    (h : Save ∈ SuccessfulSaves Serialize CanWrite
      (Actors.filterMap (SpecWriteOf Registry ExportPath))) :
    ∃ A, some A ∈ Actors ∧ Qualifies Registry (some A) ∧
      Save.1 = SpecFileName ExportPath A.ActorNameOrLabel := by
  obtain ⟨f, c⟩ := Save
  obtain ⟨W, hW, hf, _, _⟩ := (mem_SuccessfulSaves _ _ _ _ _).1 h
  obtain ⟨Actor, hA, hS⟩ := List.mem_filterMap.1 hW
  cases Actor with
  | none => simp [SpecWriteOf] at hS
  | some A =>
    refine ⟨A, hA, (SpecWriteOf_isSome_iff Registry ExportPath (some A)).1 (by simp [hS]), ?_⟩
    rw [← hf]
    exact SpecWriteOf_fileName Registry ExportPath A W hS

theorem LastSaved_without_actors (Serialize : FJsonObject → Option String)
    (CanWrite : String → Bool) (Registry : Option UMapBuildDataRegistry) (ExportPath ActorName : String)
    (Path : String) (hPath : Path ≠ SpecFileName ExportPath ActorName)
    (Actors : List (Option AActor)) :
    LastSaved Path (SuccessfulSaves Serialize CanWrite
        ((Actors.filter (fun Actor =>
          match Actor with
          | none => true
          | some A => A.ActorNameOrLabel != ActorName)).filterMap
          (SpecWriteOf Registry ExportPath)))
      = LastSaved Path (SuccessfulSaves Serialize CanWrite
          (Actors.filterMap (SpecWriteOf Registry ExportPath))) := by
  induction Actors with
  | nil => rfl
  | cons Actor Rest ih =>
    cases Actor with
    | none =>
      simpa [List.filter_cons, SpecWriteOf] using ih
    | some A =>
      by_cases hn : A.ActorNameOrLabel = ActorName
      · have hkeep : (A.ActorNameOrLabel != ActorName) = false := by simp [hn]
        simp only [List.filter_cons, hkeep, Bool.false_eq_true, if_false, ih]
        cases hw : SpecWriteOf Registry ExportPath (some A) with
        | none => simp [List.filterMap_cons, hw]
        | some Write =>
          have hf := SpecWriteOf_fileName Registry ExportPath A Write hw
          simp only [List.filterMap_cons, hw, LastSaved_SuccessfulSaves_cons]
          have hne : ¬ (Path = Write.1 ∧ CanWrite Write.1 = true) := by
            rintro ⟨h1, _⟩
            exact hPath (by rw [h1, hf, hn])
          simp only [hne, if_false]
          cases LastSaved Path (SuccessfulSaves Serialize CanWrite
            (Rest.filterMap (SpecWriteOf Registry ExportPath))) <;> rfl
      · have hkeep : (A.ActorNameOrLabel != ActorName) = true := by simp [hn]
        simp only [List.filter_cons, hkeep, if_true]
        cases hw : SpecWriteOf Registry ExportPath (some A) with
        | none => simpa [List.filterMap_cons, hw] using ih
        | some Write =>
          simp only [List.filterMap_cons, hw, LastSaved_SuccessfulSaves_cons, ih]

theorem LastSaved_failure_free (Serialize Serialize0 : FJsonObject → Option String)
    (CanWrite : String → Bool) (Path : String)
    (hagree : ∀ Doc Content, Serialize Doc = some Content → Serialize0 Doc = some Content)
    (Writes : List (String × FJsonObject))
    (hok : ∀ Write ∈ Writes, Write.1 = Path →
      CanWrite Path = true ∧ (Serialize Write.2).isSome = true) :
    LastSaved Path (SuccessfulSaves Serialize CanWrite Writes)
      = LastSaved Path (SuccessfulSaves Serialize0 (fun _ => true) Writes) := by
  induction Writes with
  | nil => rfl
  | cons W Rest ih =>
    rw [LastSaved_SuccessfulSaves_cons, LastSaved_SuccessfulSaves_cons,
      ih (fun X hX => hok X (List.mem_cons_of_mem _ hX))]
    by_cases hp : Path = W.1
    · obtain ⟨hc, hs⟩ := hok W (List.mem_cons_self _ _) hp.symm
      obtain ⟨Content, hC⟩ := Option.isSome_iff_exists.1 hs
      have hc' : CanWrite W.1 = true := by rw [← hp]; exact hc
      simp only [hp, hc', hC, hagree _ _ hC, and_self, if_true]
    · simp only [hp, false_and, if_false]

theorem SuccessfulSaves_failure_free (Serialize Serialize0 : FJsonObject → Option String)
    (CanWrite : String → Bool)
    (hagree : ∀ Doc Content, Serialize Doc = some Content → Serialize0 Doc = some Content)
    (Writes : List (String × FJsonObject)) :
    SuccessfulSaves Serialize CanWrite Writes
      = SuccessfulSaves Serialize0 (fun _ => true)
          (Writes.filter (fun Write => CanWrite Write.1 && (Serialize Write.2).isSome)) := by
  induction Writes with
  | nil => rfl
  | cons W Rest ih =>
    have h1 : SuccessfulSaves Serialize CanWrite (W :: Rest)
        = SuccessfulSaves Serialize CanWrite [W] ++ SuccessfulSaves Serialize CanWrite Rest :=
      SuccessfulSaves_append Serialize CanWrite [W] Rest
    rw [h1, ih]
    by_cases hc : CanWrite W.1 = true
    · cases hs : Serialize W.2 with
      | none => simp [SuccessfulSaves, List.filter_cons, hc, hs]
      | some Content =>
        simp [SuccessfulSaves, List.filter_cons, hc, hs, hagree _ _ hs]
    · simp [SuccessfulSaves, List.filter_cons, hc]

/-- C1 as stated fails on a scene in which two actors share a display name:
both `WallActor` and `WallActorTwin` have a component with a resolvable
identifier and they are different actors, yet after the export into the empty
directory `Out` exactly one file exists, `Out/Wall_01.json`: there are no two
output files for the two actors. -/
theorem C1_counterexample_two_actors_one_file :
    TwinWorld.PersistentLevel.Actors = [some WallActor, none, some EmptyActor, some WallActorTwin]
    ∧ TwinWorld.PersistentLevel.MapBuildData = some SampleRegistry
    ∧ Qualifies (some SampleRegistry) (some WallActor)
    ∧ Qualifies (some SampleRegistry) (some WallActorTwin)
    ∧ WallActor.ActorGuid ≠ WallActorTwin.ActorGuid
    ∧ SampleFileSystem.DirectoryExists "Out" = true
    ∧ (∀ Path, SampleFileSystem.Files Path = none)
    ∧ (ExportPrimitiveLightmapInfoInWorld SampleSerialize (some TwinWorld) "Out"
        SampleFileSystem).Fault = none
    ∧ (∀ Path,
        ((ExportPrimitiveLightmapInfoInWorld SampleSerialize (some TwinWorld) "Out"
          SampleFileSystem).FileSystem.Files Path).isSome = true ↔ Path = "Out/Wall_01.json")
    ∧ ¬ ∃ First Second, First ≠ Second
        ∧ ((ExportPrimitiveLightmapInfoInWorld SampleSerialize (some TwinWorld) "Out"
            SampleFileSystem).FileSystem.Files First).isSome = true
        ∧ ((ExportPrimitiveLightmapInfoInWorld SampleSerialize (some TwinWorld) "Out"
            SampleFileSystem).FileSystem.Files Second).isSome = true := by
  have hfiles : ∀ Path,
      ((ExportPrimitiveLightmapInfoInWorld SampleSerialize (some TwinWorld) "Out"
        SampleFileSystem).FileSystem.Files Path).isSome = true ↔ Path = "Out/Wall_01.json" := by
    intro Path
    have hname : ("Out" : String) ++ "/" ++ "Wall_01" ++ ".json" = "Out/Wall_01.json" := by
      decide
    rw [Export_files _ _ _ _ (by rfl)]
    simp only [FilesAfter, SuccessfulSaves, SpecWrites, TwinWorld, SpecWriteOf, WallActor,
      WallActorTwin, EmptyActor, SpecEntryOf, SpecLookup, BodyComponent, SampleRegistry,
      SampleFileSystem, SampleSerialize, SpecFileName, hname, List.filterMap_cons,
      List.filterMap_nil]
    by_cases hp : Path = "Out/Wall_01.json"
    · simp [LastSaved, hp]
    · simp [LastSaved, hp]
  have hres : Resolvable (some SampleRegistry) (some (UActorComponent.StaticMesh BodyComponent)) :=
    ⟨BodyComponent, ⟨⟨"LOD0-ID"⟩⟩, [], ⟨WallLightMap⟩, rfl, rfl,
      by simp [SpecLookup, SampleRegistry]⟩
  refine ⟨rfl, rfl, ⟨WallActor, rfl, _, ?_, hres⟩, ⟨WallActorTwin, rfl, _, ?_, hres⟩, by decide, rfl,
    fun _ => rfl, rfl, hfiles, ?_⟩
  · simp [WallActor]
  · simp [WallActorTwin]
  · rintro ⟨First, Second, hne, h1, h2⟩
    exact hne (((hfiles First).1 h1).trans ((hfiles Second).1 h2).symm)


/-- C1, amended: into an existing directory the export emits exactly one
document per actor that has at least one component with a resolvable
identifier, in scene order and to `<dir>/<ActorName>.json`, and none for any
other actor (a document is emitted if and only if the component-entry list is
non-empty).  The output files are thus one per display name of such actors:
no other file is touched, and when serialization and writes succeed each of
these files exists after the export.  On a level with a build-data registry
the run ends without a fault. -/
theorem C1_one_document_per_qualifying_actor (Serialize : FJsonObject → Option String)
    (World : UWorld) (ExportPath : String) (FileSystem : FFileSystem)
    (hdir : FileSystem.DirectoryExists ExportPath = true) :
    (ExportPrimitiveLightmapInfoInWorld Serialize (some World) ExportPath FileSystem).FileSystem
      = (World.PersistentLevel.Actors.filterMap
          (SpecWriteOf World.PersistentLevel.MapBuildData ExportPath)).foldl
          (PerformWrite Serialize) FileSystem
    ∧ (∀ Registry, World.PersistentLevel.MapBuildData = some Registry →
        (ExportPrimitiveLightmapInfoInWorld Serialize (some World) ExportPath FileSystem).Fault
          = none)
    ∧ (∀ Actor, (SpecWriteOf World.PersistentLevel.MapBuildData ExportPath Actor).isSome = true
        ↔ Qualifies World.PersistentLevel.MapBuildData Actor)
    ∧ (∀ A : AActor,
        (SpecWriteOf World.PersistentLevel.MapBuildData ExportPath (some A)).isSome = true
        ↔ ∃ Entry Entries,
            JsonComponentsOf World.PersistentLevel.MapBuildData A.Components
              = Except.ok (Entry :: Entries))
    ∧ (∀ (A : AActor) Write,
        SpecWriteOf World.PersistentLevel.MapBuildData ExportPath (some A) = some Write →
        Write.1 = ExportPath ++ "/" ++ A.ActorNameOrLabel ++ ".json")
    ∧ (∀ N M : String, ExportPath ++ "/" ++ N ++ ".json" = ExportPath ++ "/" ++ M ++ ".json" →
        N = M)
    ∧ (∀ Path,
        (∀ A, some A ∈ World.PersistentLevel.Actors →
          Qualifies World.PersistentLevel.MapBuildData (some A) →
          Path ≠ ExportPath ++ "/" ++ A.ActorNameOrLabel ++ ".json") →
        (ExportPrimitiveLightmapInfoInWorld Serialize (some World) ExportPath
          FileSystem).FileSystem.Files Path = FileSystem.Files Path)
    ∧ ((∀ Doc, (Serialize Doc).isSome = true) → (∀ Path, FileSystem.CanWrite Path = true) →
        ∀ A, some A ∈ World.PersistentLevel.Actors →
          Qualifies World.PersistentLevel.MapBuildData (some A) →
          ((ExportPrimitiveLightmapInfoInWorld Serialize (some World) ExportPath
            FileSystem).FileSystem.Files
              (ExportPath ++ "/" ++ A.ActorNameOrLabel ++ ".json")).isSome = true) := by
  refine ⟨by rw [Export_eq _ _ _ _ hdir]; rfl, ?_, SpecWriteOf_isSome_iff _ _, ?_, ?_, ?_, ?_, ?_⟩
  · intro Registry hreg
    rw [Export_eq _ _ _ _ hdir, hreg]
    rfl
  · intro A
    cases hreg : World.PersistentLevel.MapBuildData with
    | none =>
      simp only [SpecWriteOf_null, Option.isSome_none, Bool.false_eq_true, false_iff,
        JsonComponentsOf_cases]
      rintro ⟨Entry, Entries, h⟩
      split_ifs at h
      simp at h
    | some R =>
      simp only [SpecWriteOf, JsonComponentsOf_eq]
      rcases A.Components.filterMap (SpecEntryOf (some R)) with _ | ⟨Entry, Entries⟩ <;> simp
  · intro A Write h
    exact SpecWriteOf_fileName _ _ _ _ h
  · intro N M h
    exact SpecFileName_injective ExportPath N M h
  · intro Path hPath
    rw [Export_files _ _ _ _ hdir]
    simp only [FilesAfter]
    rw [LastSaved_eq_none]
    intro Save hSave hEq
    obtain ⟨A, hA, hQ, hF⟩ := saves_come_from_qualifying_actors _ _ _ _ _ _ hSave
    exact hPath A hA hQ (by rw [← hEq, hF]; rfl)
  · intro hSer hCan A hA hQ
    rw [Export_files _ _ _ _ hdir]
    obtain ⟨Content, hC⟩ := Option.isSome_iff_exists.1
      (hSer (SpecDocument A
        (A.Components.filterMap (SpecEntryOf World.PersistentLevel.MapBuildData))))
    have hmem : (SpecFileName ExportPath A.ActorNameOrLabel, Content)
        ∈ SuccessfulSaves Serialize FileSystem.CanWrite (SpecWrites World ExportPath) := by
      rw [mem_SuccessfulSaves]
      exact ⟨_, (mem_SpecWrites _ _ _).2 ⟨some A, hA, SpecWriteOf_of_qualifies _ _ _ hQ⟩, rfl,
        hCan _, hC⟩
    have hsome := LastSaved_isSome _ _ _ hmem
    obtain ⟨c, hc⟩ := Option.isSome_iff_exists.1 hsome
    show (FilesAfter FileSystem.Files _ (SpecFileName ExportPath A.ActorNameOrLabel)).isSome = true
    simp only [FilesAfter, hc]
    rfl

/-- A witness of the amended C1: the scene with two actors named `Wall_01`
exported to the directory `Out`. -/
theorem C1_one_document_per_qualifying_actor_witness :
    SampleFileSystem.DirectoryExists "Out" = true
    ∧ (ExportPrimitiveLightmapInfoInWorld SampleSerialize (some TwinWorld) "Out"
        SampleFileSystem).FileSystem
      = (TwinWorld.PersistentLevel.Actors.filterMap
          (SpecWriteOf TwinWorld.PersistentLevel.MapBuildData "Out")).foldl
          (PerformWrite SampleSerialize) SampleFileSystem :=
  ⟨rfl, (C1_one_document_per_qualifying_actor SampleSerialize TwinWorld "Out" SampleFileSystem
    rfl).1⟩

/-- C7: when qualifying actors share a display name, the file
`<outputDirectory>/<name>.json` holds after the export the document of the last
of them in scene order (its GUID and its components), provided that document is
serialized and saved successfully; every other file is what it would be had
the scene held no actor of that name.  The run ends without a fault. -/
theorem C7_last_actor_of_a_name_wins (Serialize : FJsonObject → Option String)
    (World : UWorld) (ExportPath : String) (FileSystem : FFileSystem)
    (Before After : List (Option AActor)) (Last : AActor) (Entries : List FJsonValue)
    (Content : String)
    (hdir : FileSystem.DirectoryExists ExportPath = true)
    (hactors : World.PersistentLevel.Actors = Before ++ some Last :: After)
    (hqualifies : Qualifies World.PersistentLevel.MapBuildData (some Last))
    (hlast : ∀ B, some B ∈ After → Qualifies World.PersistentLevel.MapBuildData (some B) →
      B.ActorNameOrLabel ≠ Last.ActorNameOrLabel)
    (hentries : JsonComponentsOf World.PersistentLevel.MapBuildData Last.Components
      = Except.ok Entries)
    (hserialize : Serialize
      ⟨[("ActorName", FJsonValue.String Last.ActorNameOrLabel),
        ("ActorGuid", FJsonValue.String Last.ActorGuid.ToString),
        ("Components", FJsonValue.Array Entries)]⟩
      = some Content)
    (hwrite : FileSystem.CanWrite (ExportPath ++ "/" ++ Last.ActorNameOrLabel ++ ".json") = true) :
    (ExportPrimitiveLightmapInfoInWorld Serialize (some World) ExportPath
        FileSystem).FileSystem.Files
        (ExportPath ++ "/" ++ Last.ActorNameOrLabel ++ ".json") = some Content
    ∧ (ExportPrimitiveLightmapInfoInWorld Serialize (some World) ExportPath FileSystem).Fault
        = none
    ∧ ∀ Path, Path ≠ ExportPath ++ "/" ++ Last.ActorNameOrLabel ++ ".json" →
        (ExportPrimitiveLightmapInfoInWorld Serialize (some World) ExportPath
          FileSystem).FileSystem.Files Path
        = (ExportPrimitiveLightmapInfoInWorld Serialize
            (some (WithoutActorsNamed Last.ActorNameOrLabel World)) ExportPath
            FileSystem).FileSystem.Files Path := by
  obtain ⟨R, hreg⟩ := Qualifies_registry _ _ hqualifies
  have hfm : Last.Components.filterMap (SpecEntryOf World.PersistentLevel.MapBuildData)
      = Entries := by
    rw [hreg, JsonComponentsOf_eq] at hentries
    rw [hreg]
    exact Except.ok.inj hentries
  refine ⟨?_, ?_, ?_⟩
  · rw [Export_files _ _ _ _ hdir]
    show FilesAfter FileSystem.Files _ (SpecFileName ExportPath Last.ActorNameOrLabel)
      = some Content
    simp only [FilesAfter, SpecWrites, hactors, List.filterMap_append, List.filterMap_cons,
      SpecWriteOf_of_qualifies _ _ _ hqualifies, SuccessfulSaves_append, LastSaved_append]
    rw [LastSaved_SuccessfulSaves_cons]
    have hnone : LastSaved (SpecFileName ExportPath Last.ActorNameOrLabel)
        (SuccessfulSaves Serialize FileSystem.CanWrite
          (After.filterMap (SpecWriteOf World.PersistentLevel.MapBuildData ExportPath)))
        = none := by
      apply LastSaved_eq_none
      intro Save hSave hEq
      obtain ⟨B, hB, hQ, hF⟩ := saves_come_from_qualifying_actors _ _ _ _ _ _ hSave
      exact hlast B hB hQ (SpecFileName_injective ExportPath _ _ (by rw [← hF, hEq]))
    have hw : FileSystem.CanWrite (SpecFileName ExportPath Last.ActorNameOrLabel) = true :=
      hwrite
    have hs : Serialize (SpecDocument Last
        (Last.Components.filterMap (SpecEntryOf World.PersistentLevel.MapBuildData)))
        = some Content := by
      rw [hfm]
      exact hserialize
    simp [hnone, hw, hs]
  · rw [Export_eq _ _ _ _ hdir, hreg]
    rfl
  · intro Path hPath
    have hPath' : Path ≠ SpecFileName ExportPath Last.ActorNameOrLabel := hPath
    rw [Export_files _ _ _ _ hdir, Export_files _ _ _ _ hdir]
    show FilesAfter _ _ Path = FilesAfter _ _ Path
    simp only [FilesAfter, SpecWrites, WithoutActorsNamed]
    rw [LastSaved_without_actors _ _ _ _ _ _ hPath']

/-- A witness of C7: in the sample scene `WallActorTwin` is the last actor
named `Wall_01`, and the file holds its document. -/
theorem C7_last_actor_of_a_name_wins_witness :
    TwinWorld.PersistentLevel.Actors
      = [some WallActor, none, some EmptyActor] ++ some WallActorTwin :: []
    ∧ (ExportPrimitiveLightmapInfoInWorld SampleSerialize (some TwinWorld) "Out"
        SampleFileSystem).FileSystem.Files
          ("Out" ++ "/" ++ WallActorTwin.ActorNameOrLabel ++ ".json")
      = some "ActorName=Wall_01;ActorGuid=EF01;Components;" :=
  ⟨rfl,
    (C7_last_actor_of_a_name_wins SampleSerialize TwinWorld "Out" SampleFileSystem
      [some WallActor, none, some EmptyActor] [] WallActorTwin
      [SpecComponentEntry BodyComponent ⟨"LOD0-ID"⟩ ⟨WallLightMap⟩]
      "ActorName=Wall_01;ActorGuid=EF01;Components;" rfl rfl
      ⟨WallActorTwin, rfl, some (UActorComponent.StaticMesh BodyComponent), by simp [WallActorTwin],
        ⟨BodyComponent, ⟨⟨"LOD0-ID"⟩⟩, [], ⟨WallLightMap⟩, rfl, rfl,
          by simp [TwinWorld, SpecLookup, SampleRegistry]⟩⟩
      (by simp)
      (by
        show JsonComponentsOf (some SampleRegistry) WallActorTwin.Components = _
        rw [JsonComponentsOf_eq]
        simp [WallActorTwin, SpecEntryOf, SpecLookup, BodyComponent, SampleRegistry])
      (by decide) rfl).1⟩

/-- C8: a failing serialization or a failing write never stops the loop over
the actors.  Whatever fails, the run still emits the document of every
qualifying actor, a failed emission changes nothing, the saves that succeed are
the saves a run without failure performs for the same documents, and a file
none of whose writes fails ends with the content the run without failure gives
it; the run ends as the run without failure ends.  The run without failure
saves every file and uses `Serialize0`, any serializer that returns what
`Serialize` returns wherever `Serialize` succeeds, in particular one that never
fails. -/
theorem C8_failed_write_does_not_abort (Serialize Serialize0 : FJsonObject → Option String)
    (World : UWorld) (ExportPath : String) (FileSystem : FFileSystem)
    (hdir : FileSystem.DirectoryExists ExportPath = true)
    (hagree : ∀ Doc Content, Serialize Doc = some Content → Serialize0 Doc = some Content) :
    (ExportPrimitiveLightmapInfoInWorld Serialize (some World) ExportPath FileSystem).FileSystem
      = (SpecWrites World ExportPath).foldl (PerformWrite Serialize) FileSystem
    ∧ (ExportPrimitiveLightmapInfoInWorld Serialize (some World) ExportPath FileSystem).Fault
      = (ExportPrimitiveLightmapInfoInWorld Serialize0 (some World) ExportPath
          { FileSystem with CanWrite := fun _ => true }).Fault
    ∧ (∀ (Current : FFileSystem) (Write : String × FJsonObject),
        Serialize Write.2 = none ∨ Current.CanWrite Write.1 = false →
        PerformWrite Serialize Current Write = Current)
    ∧ SuccessfulSaves Serialize FileSystem.CanWrite (SpecWrites World ExportPath)
      = SuccessfulSaves Serialize0 (fun _ => true)
          ((SpecWrites World ExportPath).filter
            (fun Write => FileSystem.CanWrite Write.1 && (Serialize Write.2).isSome))
    ∧ (ExportPrimitiveLightmapInfoInWorld Serialize (some World) ExportPath
        FileSystem).FileSystem.Files
      = FilesAfter FileSystem.Files
          (SuccessfulSaves Serialize FileSystem.CanWrite (SpecWrites World ExportPath))
    ∧ ∀ Path,
        (∀ Write ∈ SpecWrites World ExportPath, Write.1 = Path →
          FileSystem.CanWrite Path = true ∧ (Serialize Write.2).isSome = true) →
        (ExportPrimitiveLightmapInfoInWorld Serialize (some World) ExportPath
          FileSystem).FileSystem.Files Path
        = (ExportPrimitiveLightmapInfoInWorld Serialize0 (some World) ExportPath
            { FileSystem with CanWrite := fun _ => true }).FileSystem.Files Path := by
  refine ⟨by rw [Export_eq _ _ _ _ hdir], ?_, ?_, SuccessfulSaves_failure_free _ _ _ hagree _,
    ?_, ?_⟩
  · rw [Export_eq _ _ _ _ hdir, Export_eq Serialize0 World ExportPath
      { FileSystem with CanWrite := fun _ => true } hdir]
  · intro Current Write h
    rcases h with h | h
    · simp [PerformWrite, h]
    · cases hs : Serialize Write.2 <;> simp [PerformWrite, hs, SaveStringToFile, h]
  · rw [Export_files _ _ _ _ hdir]
  · intro Path hok
    rw [Export_files _ _ _ _ hdir, Export_files Serialize0 World ExportPath
      { FileSystem with CanWrite := fun _ => true } hdir]
    show FilesAfter _ _ Path = FilesAfter _ _ Path
    simp only [FilesAfter]
    rw [LastSaved_failure_free Serialize Serialize0 FileSystem.CanWrite Path hagree _ hok]

/-- A witness of C8: the file of `Wall_01` cannot be written, and the file of
`Floor`, the next actor, ends as in a run without failure. -/
theorem C8_failed_write_does_not_abort_witness :
    ReadOnlyWallFileSystem.DirectoryExists "Out" = true
    ∧ ReadOnlyWallFileSystem.CanWrite "Out/Wall_01.json" = false
    ∧ (ExportPrimitiveLightmapInfoInWorld SampleSerialize (some TwoRoomWorld) "Out"
        ReadOnlyWallFileSystem).FileSystem.Files "Out/Floor.json"
      = (ExportPrimitiveLightmapInfoInWorld SampleSerialize (some TwoRoomWorld) "Out"
          { ReadOnlyWallFileSystem with CanWrite := fun _ => true }).FileSystem.Files
            "Out/Floor.json" :=
  ⟨rfl, by decide,
    (C8_failed_write_does_not_abort SampleSerialize SampleSerialize TwoRoomWorld "Out"
      ReadOnlyWallFileSystem rfl (fun _ _ h => h)).2.2.2.2.2 "Out/Floor.json"
      (fun _ _ _ => ⟨by decide, rfl⟩)⟩

/-! ## The choice of an exporter (claim C9) -/

theorem toLower_eq_star (c : Char) (h : c.toLower = '*') : c = '*' := by
  by_cases hc : c.toNat ≥ 65 ∧ c.toNat ≤ 90
  · exfalso
    have hc' : Char.ofNat c.toNat = c := Char.ofNat_toNat c
    obtain ⟨h1, h2⟩ := hc
    rw [← hc'] at h
    generalize c.toNat = n at h h1 h2
    interval_cases n <;> revert h <;> decide
  · simpa [Char.toLower, hc] using h

theorem LowerChars_eq_star (S : String) : LowerChars S = LowerChars "*" ↔ S = "*" := by
  constructor
  · intro h
    have h1 : S.data.map Char.toLower = ['*'] := h
    rcases hd : S.data with _ | ⟨c, _ | ⟨d, Rest⟩⟩
    · simp [hd] at h1
    · simp only [hd, List.map_cons, List.map_nil, List.cons.injEq, and_true] at h1
      apply String.ext
      rw [hd, toLower_eq_star c h1]
    · simp [hd] at h1
  · rintro rfl
    rfl

theorem Stricmp_eq_zero (A B : String) :
    (Stricmp A B == 0) = decide (LowerChars A = LowerChars B) := by
  unfold Stricmp
  by_cases h : LowerChars A = LowerChars B
  · simp [h]
  · by_cases h2 : LowerChars A < LowerChars B <;> simp [h, h2]

theorem LowerChars_star_decide (F : String) :
    decide (LowerChars F = LowerChars "*") = (F == "*") := by
  by_cases h : F = "*"
  · simp [h]
  · have := (LowerChars_eq_star F).not.2 h
    simp [h, this]

theorem FormatLoop_eq (Extension : String) (Exporter : UExporter) (Formats : List String)
    (ValidExporters : List UExporter) :
    FormatLoop Extension Exporter Formats ValidExporters
      = if Formats.any (fun F => decide (LowerChars F = LowerChars Extension) || F == "*") then
          ValidExporters ++ [Exporter]
        else ValidExporters := by
  induction Formats with
  | nil => simp [FormatLoop]
  | cons F Rest ih =>
    simp only [FormatLoop, Stricmp_eq_zero, LowerChars_star_decide, ih, List.any_cons]
    split_ifs with h1 h2 h3 h4 h5 <;>
      first
      | rfl
      | (exfalso
         simp_all
         done)
      | (exfalso
         simp_all
         obtain ⟨x, hx, hx'⟩ := h5
         have := h3 x hx
         tauto)

theorem ExporterLoop_eq (Host : FExportHost) (ObjectToExport : UObject) (SaveFileName : String)
    (Exporters : List UExporter)
    (hcheck : ∀ E ∈ Exporters, E.SupportsObject ObjectToExport = true →
      E.FormatExtension.length = E.FormatDescription.length)
    (ValidExporters : List UExporter) :
    ExporterLoop Host ObjectToExport SaveFileName Exporters ValidExporters
      = Except.ok (ValidExporters ++
          SpecCandidates (Host.GetExtension SaveFileName) ObjectToExport Exporters) := by
  induction Exporters generalizing ValidExporters with
  | nil => simp [ExporterLoop, SpecCandidates]
  | cons E Rest ih =>
    have ih' := ih (fun X hX => hcheck X (List.mem_cons_of_mem _ hX))
    by_cases hs : E.SupportsObject ObjectToExport = true
    · have hl := hcheck E (List.mem_cons_self _ _) hs
      simp only [ExporterLoop, hs, hl, if_true, beq_self_eq_true, ih', FormatLoop_eq]
      by_cases hany : (E.FormatExtension.any (fun F =>
          decide (LowerChars F = LowerChars (Host.GetExtension SaveFileName)) || F == "*")) = true
      · simp [SpecCandidates, List.filter_cons, hs, hany]
      · simp only [Bool.not_eq_true] at hany
        simp [SpecCandidates, List.filter_cons, hs, hany]
    · simp only [Bool.not_eq_true] at hs
      simp [ExporterLoop, hs, ih', SpecCandidates, List.filter_cons]

theorem BetterMatchLoop_eq (ObjectToExport : UObject) (Candidates : List UExporter)
    (Default : UExporter) :
    BetterMatchLoop ObjectToExport Candidates Default
      = ((Candidates.find? (fun E => E.ClassName == ObjectToExport.ExporterName)).getD
          Default) := by
  induction Candidates with
  | nil => rfl
  | cons C Rest ih =>
    by_cases h : (C.ClassName == ObjectToExport.ExporterName) = true
    · simp [BetterMatchLoop, List.find?_cons, h]
    · simp only [Bool.not_eq_true] at h
      simp [BetterMatchLoop, List.find?_cons, h, ih]

/-- C9: for an object and a destination file name, the candidates of
`ExportObjects` are, in registry order and each registry entry at most once,
the exporters that support the object and declare an extension equal up to
case to the extension of the file, or the extension `*`.  The exporter used is
none for no candidate, the candidate itself when it is alone, and otherwise the
first candidate whose class name is the preferred exporter name of the object,
or the first candidate when there is no such candidate.  (The exporters that
support the object satisfy the `check` of the source on their format arrays.) -/
theorem C9_exporter_selection (Host : FExportHost) (ObjectToExport : UObject)
    (SaveFileName : String) (Exporters : List UExporter)
    (hcheck : ∀ E ∈ Exporters, E.SupportsObject ObjectToExport = true →
      E.FormatExtension.length = E.FormatDescription.length) :
    ExporterLoop Host ObjectToExport SaveFileName Exporters []
      = Except.ok (Exporters.filter (fun Exporter =>
          Exporter.SupportsObject ObjectToExport &&
          Exporter.FormatExtension.any (fun FormatExtension =>
            decide (LowerChars FormatExtension = LowerChars (Host.GetExtension SaveFileName))
              || FormatExtension == "*")))
    ∧ SelectExporter Host Exporters ObjectToExport SaveFileName
      = Except.ok
          (match SpecCandidates (Host.GetExtension SaveFileName) ObjectToExport Exporters with
           | [] => none
           | [Only] => some Only
           | First :: Others =>
             some (((First :: Others).find?
               (fun E => E.ClassName == ObjectToExport.ExporterName)).getD First)) := by
  have h := ExporterLoop_eq Host ObjectToExport SaveFileName Exporters hcheck []
  simp only [List.nil_append] at h
  refine ⟨h, ?_⟩
  simp only [SelectExporter, h]
  rcases SpecCandidates (Host.GetExtension SaveFileName) ObjectToExport Exporters
    with _ | ⟨A, _ | ⟨B, Rest⟩⟩
  · rfl
  · rfl
  · simp only [ExporterToUse, BetterMatchLoop_eq]

/-- A witness of C9: a texture that prefers `TextureExporterPNG`, saved as a
`.png` file, has two candidates and is exported by the one it prefers. -/
theorem C9_exporter_selection_witness :
    (∀ E ∈ SampleExporters,
      E.SupportsObject ⟨1, "Lightmap_HQ", "TextureExporterPNG", false, false⟩ = true →
      E.FormatExtension.length = E.FormatDescription.length)
    ∧ SelectExporter SampleHost SampleExporters
        ⟨1, "Lightmap_HQ", "TextureExporterPNG", false, false⟩ "Out/Lightmap_HQ.png"
      = Except.ok
          (match SpecCandidates (SampleHost.GetExtension "Out/Lightmap_HQ.png")
              ⟨1, "Lightmap_HQ", "TextureExporterPNG", false, false⟩ SampleExporters with
           | [] => none
           | [Only] => some Only
           | First :: Others =>
             some (((First :: Others).find?
               (fun E => E.ClassName == "TextureExporterPNG")).getD First))
    ∧ (SpecCandidates (SampleHost.GetExtension "Out/Lightmap_HQ.png")
        ⟨1, "Lightmap_HQ", "TextureExporterPNG", false, false⟩ SampleExporters).map
        (fun E => E.ClassName) = ["TextureExporterGeneric", "TextureExporterPNG"] :=
  ⟨by simp [SampleExporters],
    (C9_exporter_selection SampleHost ⟨1, "Lightmap_HQ", "TextureExporterPNG", false, false⟩
      "Out/Lightmap_HQ.png" SampleExporters (by simp [SampleExporters])).2,
    by decide⟩

/-! ## The lists of `ExportLightmap` (claim C10) -/

theorem Combine_texture (ExportPath : String) (Texture : UObject) :
    Combine ExportPath (Texture.Name ++ LightmapPostfix) = SpecTextureFileName ExportPath Texture := by
  simp [Combine, SpecTextureFileName, LightmapPostfix, String.append_assoc]

theorem LightmapLoop_invariant (Equals : String → String → Bool)
    (hrefl : ∀ S, Equals S S = true) (ExportPath : String)
    (Rest Done : List (Option UTexture2D)) (Objs : List UObject) (Names : List String)
    (hnames : Names = Objs.map (SpecTextureFileName ExportPath))
    (hnodup : Names.Nodup)
    (hfirst : ∀ T ∈ Objs,
      Done.find? (IsTextureFor ExportPath (SpecTextureFileName ExportPath T)) = some (some T))
    (hseen : ∀ T, some T ∈ Done →
      Names.any (fun N => Equals N (SpecTextureFileName ExportPath T)) = true) :
    (LightmapLoop Equals ExportPath Rest (Objs, Names)).2
        = (LightmapLoop Equals ExportPath Rest (Objs, Names)).1.map
            (SpecTextureFileName ExportPath)
    ∧ (LightmapLoop Equals ExportPath Rest (Objs, Names)).2.Nodup
    ∧ ∀ T ∈ (LightmapLoop Equals ExportPath Rest (Objs, Names)).1,
        (Done ++ Rest).find? (IsTextureFor ExportPath (SpecTextureFileName ExportPath T))
          = some (some T) := by
  induction Rest generalizing Done Objs Names with
  | nil => simpa [LightmapLoop] using ⟨hnames, hnodup, hfirst⟩
  | cons Texture Rest ih =>
    cases Texture with
    | none =>
      have h := ih (Done ++ [none]) Objs Names hnames hnodup
        (fun T hT => by simp [List.find?_append, hfirst T hT])
        (fun T hT => hseen T (by simpa using hT))
      simpa [LightmapLoop] using h
    | some Obj =>
      simp only [LightmapLoop, Combine_texture]
      by_cases hany : Names.any (fun N => Equals N (SpecTextureFileName ExportPath Obj)) = true
      · have h := ih (Done ++ [some Obj]) Objs Names hnames hnodup
          (fun T hT => by simp [List.find?_append, hfirst T hT])
          (fun T hT => by
            rcases List.mem_append.1 hT with h1 | h1
            · exact hseen T h1
            · simp only [List.mem_singleton, Option.some.injEq] at h1
              rw [h1]
              exact hany)
        simpa [hany] using h
      · simp only [Bool.not_eq_true] at hany
        have hnotin : SpecTextureFileName ExportPath Obj ∉ Names := by
          intro hin
          have : Names.any (fun N => Equals N (SpecTextureFileName ExportPath Obj)) = true :=
            List.any_eq_true.2 ⟨_, hin, hrefl _⟩
          rw [hany] at this
          cases this
        have hnew : Done.find? (IsTextureFor ExportPath (SpecTextureFileName ExportPath Obj))
            = none := by
          rw [List.find?_eq_none]
          intro X hX hIs
          cases X with
          | none => simp [IsTextureFor] at hIs
          | some T =>
            simp only [IsTextureFor, decide_eq_true_eq] at hIs
            have := hseen T hX
            rw [hIs, hany] at this
            cases this
        have h := ih (Done ++ [some Obj]) (Objs ++ [Obj])
          (Names ++ [SpecTextureFileName ExportPath Obj])
          (by simp [hnames])
          (by
            rw [List.nodup_append]
            refine ⟨hnodup, List.nodup_singleton _, ?_⟩
            intro a ha hb
            simp only [List.mem_singleton] at hb
            exact hnotin (hb ▸ ha))
          (fun T hT => by
            rcases List.mem_append.1 hT with h1 | h1
            · simp [List.find?_append, hfirst T h1]
            · simp only [List.mem_singleton] at h1
              subst h1
              simp [List.find?_append, hnew, IsTextureFor])
          (fun T hT => by
            rcases List.mem_append.1 hT with h1 | h1
            · have := hseen T h1
              rw [List.any_append, this]
              rfl
            · simp only [List.mem_singleton, Option.some.injEq] at h1
              rw [h1, List.any_append]
              simp [hrefl])
        simpa [hany] using h

theorem ExporterLoop_fault (Host : FExportHost) (ObjectToExport : UObject) (SaveFileName : String)
    (Exporters ValidExporters : List UExporter) (F : Fault)
    (h : ExporterLoop Host ObjectToExport SaveFileName Exporters ValidExporters = Except.error F) :
    F = Fault.CheckFailed := by
  induction Exporters generalizing ValidExporters with
  | nil => simp [ExporterLoop] at h
  | cons E Rest ih =>
    simp only [ExporterLoop] at h
    split_ifs at h with h1 h2
    · exact ih _ h
    · simp only [Except.error.injEq] at h
      exact h.symm
    · exact ih _ h

theorem SelectExporter_fault (Host : FExportHost) (Exporters : List UExporter)
    (ObjectToExport : UObject) (SaveFileName : String) (F : Fault)
    (h : SelectExporter Host Exporters ObjectToExport SaveFileName = Except.error F) :
    F = Fault.CheckFailed := by
  simp only [SelectExporter] at h
  cases he : ExporterLoop Host ObjectToExport SaveFileName Exporters [] with
  | error G =>
    rw [he] at h
    simp only [Except.error.injEq] at h
    rw [← h]
    exact ExporterLoop_fault _ _ _ _ _ _ he
  | ok V =>
    rw [he] at h
    cases h

theorem ObjectLoop_in_range (Host : FExportHost) (Exporters : List UExporter)
    (SaveFileNameList : List String) (Objects : List (Option UObject)) (Index : Nat)
    (hlen : Index + Objects.length ≤ SaveFileNameList.length) :
    ObjectLoop Host Exporters SaveFileNameList Index Objects
      ≠ Except.error Fault.IndexOutOfRange := by
  induction Objects generalizing Index with
  | nil => simp [ObjectLoop]
  | cons O Rest ih =>
    have hrest : ObjectLoop Host Exporters SaveFileNameList (Index + 1) Rest
        ≠ Except.error Fault.IndexOutOfRange :=
      ih (Index + 1) (by simp only [List.length_cons] at hlen; omega)
    cases O with
    | none => simpa [ObjectLoop] using hrest
    | some Obj =>
      have hidx : Index < SaveFileNameList.length := by
        simp only [List.length_cons] at hlen
        omega
      obtain ⟨Name, hName⟩ : ∃ Name, SaveFileNameList[Index]? = some Name :=
        ⟨SaveFileNameList[Index], List.getElem?_eq_getElem hidx⟩
      simp only [ObjectLoop, hName]
      split_ifs with h1 h2 h3
      · exact hrest
      · exact hrest
      · exact hrest
      · cases hsel : SelectExporter Host Exporters Obj Name with
        | error F =>
          have := SelectExporter_fault _ _ _ _ _ hsel
          subst this
          simp
        | ok Choice =>
          cases Choice with
          | none => simpa using hrest
          | some E =>
            simp only
            split_ifs with h4
            · simp
            · cases hr : ObjectLoop Host Exporters SaveFileNameList (Index + 1) Rest with
              | error F =>
                simp only [ne_eq, Except.error.injEq]
                intro hF
                exact hrest (by rw [hr, hF])
              | ok Tasks => simp

/-- C10: the two lists `ExportLightmap` hands to `ExportObjects` have the same
length, the destination names are pairwise distinct, the name at each position
is `<ExportPath>/<TextureName>.png` for the texture at that position, and that
texture is the first non-null texture of the input with this destination name.
Hence the name list has an entry at every index below the number of objects,
and `ExportObjects`, called by `ExportLightmap`, never leaves the name list.  (The comparison of
`LightmapNames.Contains` is any reflexive one.) -/
theorem C10_lightmap_lists_are_parallel (Equals : String → String → Bool)
    (hrefl : ∀ S, Equals S S = true) (Host : FExportHost) (Exporters : List UExporter)
    (ExportPath : String) (AllLightmaps : List (Option UTexture2D)) :
    (LightmapLists Equals ExportPath AllLightmaps).1.length
        = (LightmapLists Equals ExportPath AllLightmaps).2.length
    ∧ (LightmapLists Equals ExportPath AllLightmaps).2.Nodup
    ∧ (LightmapLists Equals ExportPath AllLightmaps).2
        = (LightmapLists Equals ExportPath AllLightmaps).1.map
            (fun Texture => ExportPath ++ "/" ++ Texture.Name ++ ".png")
    ∧ (∀ Texture ∈ (LightmapLists Equals ExportPath AllLightmaps).1,
        AllLightmaps.find?
          (IsTextureFor ExportPath (ExportPath ++ "/" ++ Texture.Name ++ ".png"))
          = some (some Texture))
    ∧ (∀ Index, Index < (LightmapLists Equals ExportPath AllLightmaps).1.length →
        ∃ Name, (LightmapLists Equals ExportPath AllLightmaps).2[Index]? = some Name)
    ∧ (∀ (World : UWorld) (SelectedDirectory : Option String),
        ExportLightmap Host Exporters Equals World SelectedDirectory AllLightmaps
          ≠ Except.error Fault.IndexOutOfRange) := by
  have hlen : ∀ Path, (LightmapLists Equals Path AllLightmaps).1.length
      = (LightmapLists Equals Path AllLightmaps).2.length := by
    intro Path
    obtain ⟨h1, _, _⟩ := LightmapLoop_invariant Equals hrefl Path AllLightmaps [] [] []
      rfl List.nodup_nil (fun T hT => by simp at hT) (fun T hT => by simp at hT)
    show _ = (LightmapLoop Equals Path AllLightmaps ([], [])).2.length
    rw [h1, List.length_map]
    rfl
  obtain ⟨h1, h2, h3⟩ := LightmapLoop_invariant Equals hrefl ExportPath AllLightmaps [] [] []
    rfl List.nodup_nil (fun T hT => by simp at hT) (fun T hT => by simp at hT)
  refine ⟨hlen ExportPath, h2, h1, ?_, ?_, ?_⟩
  · intro Texture hT
    have := h3 Texture hT
    simpa using this
  · intro Index hI
    rw [hlen] at hI
    exact ⟨_, List.getElem?_eq_getElem hI⟩
  · intro World SelectedDirectory
    cases SelectedDirectory with
    | none => simp [ExportLightmap]
    | some Dir =>
      apply ObjectLoop_in_range
      simp [hlen]

/-- A witness of C10: four sample textures, one null and two of the same
name, compared up to the case of letters. -/
theorem C10_lightmap_lists_are_parallel_witness :
    (∀ S, SampleEquals S S = true)
    ∧ (LightmapLists SampleEquals "Out" SampleLightmaps).1.length
        = (LightmapLists SampleEquals "Out" SampleLightmaps).2.length
    ∧ (LightmapLists SampleEquals "Out" SampleLightmaps).2
        = ["Out/Lightmap_HQ.png", "Out/Lightmap_LQ.png"]
    ∧ (LightmapLists SampleEquals "Out" SampleLightmaps).1.map (fun T => T.UniqueID) = [1, 2] :=
  ⟨fun S => by simp [SampleEquals],
    (C10_lightmap_lists_are_parallel SampleEquals (fun S => by simp [SampleEquals]) SampleHost
      SampleExporters "Out" SampleLightmaps).1,
    by decide, by decide⟩

end LightmapExport
